import Mathlib

/-!
httpms media library: index store and ingestion pipeline

A shallow embedding of `src/library/local_library.go` and of the handlers of
`src/webserver/handlers.go`.  The SQLite database behind
`lib.db` is a value of type `Store`: three tables held as lists of rows in the order
the engine scans them, plus the connection's `last_insert_rowid()`.  Every SQL
statement of the Go source is a function on that value; every Go method keeps its
name and takes the store as an explicit argument, returning the new store next to
its Go result where it writes.

Modelling conventions
* Go strings are Lean strings (sequences of Unicode characters); `len(x) < 1`
  is `x.length < 1`.
* `int64` ids and track numbers are `Int`; the engine's rowid ceiling of `2^63 - 1`
  is never reached.
* A Go `error` result is `Option LibError` (`none` is `nil`); a `(value, error)`
  result is `Except LibError value`.
* The engine executes every statement it is given: `Prepare`, `Exec` and `Scan`
  fail only where the source can observe `sql.ErrNoRows` or a NULL column, and where
  a `LIKE` pattern is over the engine's length limit.
* `LIKE` is the engine's: `%` and `_` are wildcards, ASCII letters compare without
  case, pattern and text are read up to their first NUL character, and the code
  points U+FFFE and U+FFFF are read as U+FFFD.
* `Search` hands its SQL text and its bound values to `dbQuery`, as the Go method
  hands them to `lib.db.Query`; the other statements are functions on the store.
* The file system and the tag reader are outside the program; `AddMedia` and
  `removeFile` take what they would answer as an argument.
* `Close`, `Truncate` and `Initialize` work on `LocalLibrary`, the fields of the Go
  struct they touch; what they do to the outside world is returned as a list of
  actions or of executed queries.  The model is sequential.
* The handlers of `src/webserver/handlers.go` take the base64 decoder, the library's
  `GetFilePath` and `os.Stat` as arguments; `find` returns what it did, in order.
-/

namespace Httpms

/-! ## Data model -/

/-- UnknownLabel is used in case some media tag is missing. -/
def UnknownLabel : String := "Unknown"

/-- Error values the library can hand back. -/
inductive LibError where
  | errNoRows
  | statFailed (path : String)
  | taglibError (filename : String) (msg : String)
  | dbNil
  | getwdFailed
  | schemaEmpty
  | libraryNotOpened
  | engine (msg : String)
  | atoiError (text : String)
  deriving DecidableEq, Repr

deriving instance DecidableEq for Except

/-- A row of table artists (id, name). -/
structure ArtistRow where
  id : Int
  name : String
  deriving DecidableEq, Repr

/-- A row of table albums (id, name, artist_id). -/
structure AlbumRow where
  id : Int
  name : String
  artist_id : Int
  deriving DecidableEq, Repr

/-- A row of table tracks (id, name, album_id, artist_id, fs_path, number). -/
structure TrackRow where
  id : Int
  name : String
  album_id : Int
  artist_id : Int
  fs_path : String
  number : Int
  deriving DecidableEq, Repr

/-- The database behind lib.db: the three tables and the connection's last insert rowid. -/
structure Store where
  artists : List ArtistRow
  albums : List AlbumRow
  tracks : List TrackRow
  lastInsertRowid : Int
  deriving DecidableEq, Repr

/-- The store right after the schema has been created: three empty tables. -/
def Store.empty : Store := ⟨[], [], [], 0⟩

/-- SearchResult of library.go. -/
structure SearchResult where
  ID : Int
  Artist : String
  AlbumID : Int
  Album : String
  Title : String
  TrackNumber : Int
  deriving DecidableEq, Repr

/-- Modelled from the spec: the MediaFile interface is declared outside the sources; the
tag reader answers with artist, album, title and track number, read in the source through
Artist(), Album(), Title() and Track(). -/
structure MediaFile where
  artist : String
  album : String
  title : String
  track : Int
  deriving DecidableEq, Repr

/-- The world outside the library as AddMedia sees it: os.Stat (none is a nil error)
and taglib.Read (an error message or the parsed file). -/
structure Env where
  stat : String → Option LibError
  taglibRead : String → Except String MediaFile

/-! ## The relational engine -/

/-- Largest rowid of a table, none when the table is empty. -/
def maxRowid : List Int → Option Int
  | [] => none
  | x :: xs =>
    match maxRowid xs with
    | none => some x
    | some m => some (max x m)

/-- Modelled from the spec: the schema script sqls/library_schema.sql is not among the
sources; each table has a store-assigned integer id. The engine gives a new row of an
integer-primary-key table the rowid 1 in an empty table and the largest rowid plus one
otherwise. -/
def nextRowid (ids : List Int) : Int :=
  match maxRowid ids with
  | none => 1
  | some m => m + 1

/-- Modelled from the spec: the schema script is not among the sources; an id is a
store-assigned integer identity, unique within its table. -/
structure Store.WF (s : Store) : Prop where
  artists_ids : (s.artists.map (·.id)).Nodup
  albums_ids : (s.albums.map (·.id)).Nodup
  tracks_ids : (s.tracks.map (·.id)).Nodup

/-- ASCII lower-casing, the only case folding LIKE does. -/
def asciiLower (c : Char) : Char :=
  if 65 ≤ c.toNat ∧ c.toNat ≤ 90 then Char.ofNat (c.toNat + 32) else c

/-- The part of a text before its first NUL character. LIKE takes its two arguments as C
strings, and a C string ends at its first NUL: what follows a NUL is not looked at. -/
def untilNul (cs : List Char) : List Char :=
  cs.takeWhile (fun c => c ≠ Char.ofNat 0)

/-- The engine's patternCompare on a pattern and a text as LIKE reads them: in the
pattern % stands for any run of characters and _ for any one character;
letters compare without ASCII case. -/
def patternCompare : List Char → List Char → Bool
  | [], t => t.isEmpty
  | c :: p, t =>
    if c = '%' then t.tails.any (fun u => patternCompare p u)
    else
      match t with
      | [] => false
      | x :: ts => (c = '_' || asciiLower c = asciiLower x) && patternCompare p ts

/-- The engine's sqlite3Utf8Read on one character of a text: the code points U+FFFE and
U+FFFF are read as U+FFFD, every other character as itself. -/
def utf8Read (c : Char) : Char :=
  if c.toNat = 0xFFFE ∨ c.toNat = 0xFFFF then Char.ofNat 0xFFFD else c

/-- A text as the engine's LIKE reads it: up to its first NUL, character by character
through utf8Read. -/
def likeRead (cs : List Char) : List Char :=
  (untilNul cs).map utf8Read

/-- The engine's LIKE on a pattern within the length limit: the first argument is the
pattern; pattern and text are both taken as LIKE reads them. -/
def likeMatch (pattern text : List Char) : Bool :=
  patternCompare (likeRead pattern) (likeRead text)

/-- The engine's limit on the length of a LIKE pattern, in bytes: the default of
SQLITE_MAX_LIKE_PATTERN_LENGTH. -/
def likePatternLimit : Nat := 50000

/-- LIKE refuses a pattern of more bytes (of its UTF-8 form, the form a Go string has)
than the limit, whatever the text: the statement that holds it fails with
"LIKE or GLOB pattern too complex". -/
def likeTooLong (pattern : String) : Bool :=
  decide (likePatternLimit < pattern.utf8ByteSize)

/-- The expression (value LIKE pattern) used as a condition, for a pattern within the
length limit: a NULL value never passes. -/
def sqlLike (pattern : String) (value : Option String) : Bool :=
  match value with
  | none => false
  | some v => likeMatch pattern.toList v.toList

/-- INSERT INTO artists (name) VALUES (?). -/
def insertArtist (s : Store) (name : String) : Store :=
  let id := nextRowid (s.artists.map (·.id))
  { s with artists := s.artists ++ [⟨id, name⟩], lastInsertRowid := id }

/-- INSERT INTO albums (name, artist_id) VALUES (?, ?). -/
def insertAlbum (s : Store) (name : String) (artistID : Int) : Store :=
  let id := nextRowid (s.albums.map (·.id))
  { s with albums := s.albums ++ [⟨id, name, artistID⟩], lastInsertRowid := id }

/-- INSERT INTO tracks (name, album_id, artist_id, fs_path, number) VALUES (?, ?, ?, ?, ?). -/
def insertTrack (s : Store) (name : String) (albumID artistID : Int) (fsPath : String)
    (number : Int) : Store :=
  let id := nextRowid (s.tracks.map (·.id))
  { s with tracks := s.tracks ++ [⟨id, name, albumID, artistID, fsPath, number⟩],
           lastInsertRowid := id }

/-- One row of tracks as t LEFT JOIN albums as al LEFT JOIN artists as ar: the joined
album and artist are NULL (none) when no row has the referenced id. -/
structure JoinedRow where
  t : TrackRow
  al : Option AlbumRow
  ar : Option ArtistRow
  deriving DecidableEq, Repr

/-- The right-hand side of a LEFT JOIN for one left row: the matching rows, or one NULL. -/
def leftJoin {β : Type} : List β → List (Option β)
  | [] => [none]
  | x :: xs => (x :: xs).map some

/-- The FROM clause shared by Search and GetAlbumFiles. -/
def joinedRows (s : Store) : List JoinedRow :=
  s.tracks.flatMap fun t =>
    (leftJoin (s.albums.filter fun al => al.id = t.album_id)).flatMap fun al =>
      (leftJoin (s.artists.filter fun ar => ar.id = t.artist_id)).map fun ar =>
        { t := t, al := al, ar := ar }

/-- Strict order of the ORDER BY column al.name: NULL first, then binary text order. -/
def albumNameLT : Option String → Option String → Bool
  | none, none => false
  | none, some _ => true
  | some _, none => false
  | some a, some b => decide (a.toList < b.toList)

/-- The order of the clause ORDER BY al.name, t.number. -/
def rowLE (a b : JoinedRow) : Bool :=
  albumNameLT (a.al.map (·.name)) (b.al.map (·.name)) ||
    (decide (a.al.map (·.name) = b.al.map (·.name)) && decide (a.t.number ≤ b.t.number))

/-- The rows in the order of the clause ORDER BY al.name, t.number. -/
def orderRows (rows : List JoinedRow) : List JoinedRow :=
  rows.insertionSort (fun a b => rowLE a b = true)

/-- The loop body rows.Scan(&res.ID, &res.Title, &res.Album, &res.Artist, &res.TrackNumber,
&res.AlbumID) on a fresh SearchResult: Scan assigns column by column and stops at the
first NULL it cannot store in a string; its error is not looked at. -/
def scanRow (r : JoinedRow) : SearchResult :=
  match r.al, r.ar with
  | none, _ => ⟨r.t.id, "", 0, "", r.t.name, 0⟩
  | some al, none => ⟨r.t.id, "", 0, al.name, r.t.name, 0⟩
  | some al, some ar => ⟨r.t.id, ar.name, r.t.album_id, al.name, r.t.name, r.t.number⟩

/-! ## Go standard library: path/filepath and strings on a Unix system -/

/-- Go strings.HasSuffix. -/
def hasSuffix (s suffix : String) : Bool :=
  suffix.toList.isSuffixOf s.toList

/-- Go filepath.Base: the last element of the path, trailing slashes removed first. -/
def filepathBase (path : String) : String :=
  if path = "" then "."
  else
    let stripped := path.toList.reverse.dropWhile (fun c => c = '/')
    let last := (stripped.takeWhile (fun c => c ≠ '/')).reverse
    if last = [] then "/" else String.mk last

/-- The element loop of Go filepath.Clean; acc is the output so far, last element first. -/
def cleanElems (rooted : Bool) : List (List Char) → List (List Char) → List (List Char)
  | acc, [] => acc.reverse
  | acc, e :: es =>
    if e = [] ∨ e = ['.'] then cleanElems rooted acc es
    else if e = ['.', '.'] then
      match acc with
      | top :: rest =>
        if top = ['.', '.'] then cleanElems rooted (e :: acc) es
        else cleanElems rooted rest es
      | [] => if rooted then cleanElems rooted [] es else cleanElems rooted [e] es
    else cleanElems rooted (e :: acc) es

/-- Go filepath.Clean. -/
def filepathClean (path : String) : String :=
  if path = "" then "."
  else
    let rooted : Bool := path.toList.head? = some '/'
    let out := cleanElems rooted [] (path.toList.splitOn '/')
    let body := String.mk (List.intercalate ['/'] out)
    if rooted then "/" ++ body else if out = [] then "." else body

/-- Go filepath.Join: empty elements are dropped, the result is cleaned. -/
def filepathJoin (elems : List String) : String :=
  let nonEmpty := elems.filter (fun e => e ≠ "")
  if nonEmpty = [] then "" else filepathClean (String.intercalate "/" nonEmpty)

/-- Go filepath.Abs; getwd is what os.Getwd would answer. -/
def filepathAbs (getwd : Except LibError String) (path : String) : Except LibError String :=
  if path.toList.head? = some '/' then .ok (filepathClean path)
  else
    match getwd with
    | .error e => .error e
    | .ok wd => .ok (filepathJoin [wd, path])

/-- Go strings.TrimRight(s, "/"). -/
def trimRightSlash (s : String) : String :=
  String.mk (s.toList.reverse.dropWhile (fun c => c = '/')).reverse

/-! ## LocalLibrary -/

/-- The SQL text that Search hands to lib.db.Query: the raw string literal of
local_library.go, lines 122 to 140, with its line breaks and tabs. -/
def searchSQL : String :=
  "\n" ++
    "\t\tSELECT\n" ++
    "\t\t\tt.id as track_id,\n" ++
    "\t\t\tt.name as track,\n" ++
    "\t\t\tal.name as album,\n" ++
    "\t\t\tat.name as artist,\n" ++
    "\t\t\tt.number as track_number,\n" ++
    "\t\t\tt.album_id as album_id\n" ++
    "\t\tFROM\n" ++
    "\t\t\ttracks as t\n" ++
    "\t\t\t\tLEFT JOIN albums as al ON al.id = t.album_id\n" ++
    "\t\t\t\tLEFT JOIN artists as at ON at.id = t.artist_id\n" ++
    "\t\tWHERE\n" ++
    "\t\t\tt.name LIKE ? OR\n" ++
    "\t\t\tal.name LIKE ? OR\n" ++
    "\t\t\tat.name LIKE ?\n" ++
    "\t\tORDER BY\n" ++
    "\t\t\tal.name, t.number\n" ++
    "\t"

/-- What lib.db.Query answers, on a store, to the SQL text and the bound values that
Search hands to it.  The engine runs what the text spells.  For the text of Search with
three values that is: the join of tracks with albums and artists, of it the rows for
which one of the three LIKE conditions passes, each with its own bound value as the
pattern, in the order of ORDER BY.  The statement fails when a pattern is over the length
limit.  (The engine finds that out at the first row it fetches, so on a store without
tracks it answers no row instead of failing; Search returns no result either way.)
Every other text and every other number of values is refused. -/
def dbQuery (s : Store) (query : String) (args : List String) :
    Except LibError (List JoinedRow) :=
  if query = searchSQL then
    match args with
    | [name, album, artist] =>
      if likeTooLong name || likeTooLong album || likeTooLong artist then
        .error (.engine "LIKE or GLOB pattern too complex")
      else
        .ok (orderRows ((joinedRows s).filter fun r =>
          sqlLike name (some r.t.name) || sqlLike album (r.al.map (·.name)) ||
            sqlLike artist (r.ar.map (·.name))))
    | _ => .error (.engine "wrong number of values for the parameters")
  else .error (.engine "not the statement of Search")

/-- The loop over rows.Next() of Search: one result for every row fetched, and no result
when the query failed. -/
def scanRows : Except LibError (List JoinedRow) → List SearchResult
  | .error _ => []
  | .ok rows => rows.map scanRow

/-- Search searches in the library. Will match against the name, artist and album of a track. -/
def Search (s : Store) (searchTerm : String) : List SearchResult :=
  let searchTerm := "%" ++ searchTerm ++ "%"
  scanRows (dbQuery s searchSQL [searchTerm, searchTerm, searchTerm])

/-- GetFilePath returns the filesystem path for a file specified by its ID. -/
def GetFilePath (s : Store) (ID : Int) : String :=
  match s.tracks.find? (fun t => t.id = ID) with
  | none => ""
  | some t => t.fs_path

/-- GetAlbumFiles: all the files of an album. -/
def GetAlbumFiles (s : Store) (albumID : Int) : List SearchResult :=
  let rows := (joinedRows s).filter fun r => r.t.album_id = albumID
  (orderRows rows).map scanRow

/-- Removes the file from the library: DELETE FROM tracks WHERE fs_path = ?. -/
def removeFile (getwd : Except LibError String) (s : Store) (filePath : String) : Store :=
  match filepathAbs getwd filePath with
  | .error _ => s
  | .ok fullPath => { s with tracks := s.tracks.filter fun t => ¬ (t.fs_path = fullPath) }

/-- Removes files which belong in this directory: DELETE FROM tracks WHERE fs_path LIKE ?.
When the pattern is over the engine's length limit the statement fails, the error is
logged and no row is deleted. -/
def removeDirectory (s : Store) (dirPath : String) : Store :=
  let deleteMatch := trimRightSlash dirPath ++ "/%"
  if likeTooLong deleteMatch then s
  else
    { s with
      tracks := s.tracks.filter fun t => ¬ (sqlLike deleteMatch (some t.fs_path) = true) }

/-- Determines if the file will be saved to the database. -/
def isSupportedFormat (path : String) : Bool :=
  let supportedFormats := [".mp3", ".ogg", ".oga", ".wav", ".fla", ".flac", ".m4a"]
  supportedFormats.any fun format => hasSuffix path format

/-- MediaExistsInLibrary checks if the media file with this path has been added already:
SELECT count(id) FROM tracks WHERE fs_path = ?. -/
def MediaExistsInLibrary (s : Store) (filename : String) : Bool :=
  let count := (s.tracks.filter fun t => t.fs_path = filename).length
  decide (count ≥ 1)

/-- GetArtistID returns the id for this artist: SELECT id FROM artists WHERE name = ?. -/
def GetArtistID (s : Store) (artist : String) : Except LibError Int :=
  match s.artists.find? (fun r => r.name = artist) with
  | none => .error .errNoRows
  | some r => .ok r.id

/-- Returns the last ID insert in the database. The handle lib.db is open whenever a
setter gets here (its Prepare has already run on it), so the nil branch is not taken. -/
def lastInsertID (s : Store) : Except LibError Int :=
  .ok s.lastInsertRowid

/-- Sets a new ID for this artist if it is new to the library. If not, returns its
current id. -/
def setArtistID (s : Store) (artist : String) : Store × Except LibError Int :=
  let artist := if artist.length < 1 then UnknownLabel else artist
  match GetArtistID s artist with
  | .ok id => (s, .ok id)
  | .error _ =>
    let s1 := insertArtist s artist
    (s1, lastInsertID s1)

/-- GetAlbumID returns the id for the album of this artist:
SELECT id FROM albums WHERE name = ? AND artist_id = ?. -/
def GetAlbumID (s : Store) (album : String) (artistID : Int) : Except LibError Int :=
  match s.albums.find? (fun r => r.name = album ∧ r.artist_id = artistID) with
  | none => .error .errNoRows
  | some r => .ok r.id

/-- Sets a new ID for this album if it is new to the library. If not, returns its
current id. -/
def setAlbumID (s : Store) (album : String) (artistID : Int) : Store × Except LibError Int :=
  let album := if album.length < 1 then UnknownLabel else album
  match GetAlbumID s album artistID with
  | .ok id => (s, .ok id)
  | .error _ =>
    let s1 := insertAlbum s album artistID
    (s1, lastInsertID s1)

/-- GetTrackID returns the id for this track:
SELECT id FROM tracks WHERE name = ? AND artist_id = ? AND album_id = ?. -/
def GetTrackID (s : Store) (title : String) (artistID albumID : Int) : Except LibError Int :=
  match s.tracks.find? (fun r => r.name = title ∧ r.artist_id = artistID ∧ r.album_id = albumID) with
  | none => .error .errNoRows
  | some r => .ok r.id

/-- Sets a new ID for this track if it is new to the library. If not, returns its
current id. -/
def setTrackID (s : Store) (title fsPath : String) (trackNumber artistID albumID : Int) :
    Store × Except LibError Int :=
  let title := if title.length < 1 then filepathBase fsPath else title
  match GetTrackID s title artistID albumID with
  | .ok id => (s, .ok id)
  | .error _ =>
    let s1 := insertTrack s title albumID artistID fsPath trackNumber
    (s1, lastInsertID s1)

/-- The method inserts an already parsed media info object into the library database. -/
def insertMediaIntoDatabase (s : Store) (file : MediaFile) (filePath : String) :
    Store × Option LibError :=
  match setArtistID s file.artist with
  | (s1, .error err) => (s1, some err)
  | (s1, .ok artistID) =>
    match setAlbumID s1 file.album artistID with
    | (s2, .error err) => (s2, some err)
    | (s2, .ok albumID) =>
      match setTrackID s2 file.title filePath file.track artistID albumID with
      | (s3, .error err) => (s3, some err)
      | (s3, .ok _) => (s3, none)

/-- AddMedia adds a file specified by its filesystem name to the library. -/
def AddMedia (env : Env) (s : Store) (filename : String) : Store × Option LibError :=
  if MediaExistsInLibrary s filename then (s, none)
  else
    match env.stat filename with
    | some err => (s, some err)
    | none =>
      match env.taglibRead filename with
      | .error msg => (s, some (.taglibError filename msg))
      | .ok file => insertMediaIntoDatabase s file filename

/-! ## Names under which tags are stored -/

/-- The name a possibly empty artist or album tag is stored under. -/
def storedName (tag : String) : String :=
  if tag.length < 1 then UnknownLabel else tag

/-- The title a track is stored under: the tag, or the base name of the path when the
tag is empty. -/
def storedTitle (title fsPath : String) : String :=
  if title.length < 1 then filepathBase fsPath else title

/-- The stored (title, artist name, album name) of a file: the key setTrackID looks a
track up by, with the ids of artist and album replaced by their names. -/
def storedKey (file : MediaFile) (p : String) : String × String × String :=
  (storedTitle file.title p, storedName file.artist, storedName file.album)

/-! ## The file name extension in the words of the specification -/

/-- The last path element: the text after the last '/' of the path, the whole path when
it has none. -/
def lastPathElement (path : String) : List Char :=
  (path.toList.reverse.takeWhile (fun c => c ≠ '/')).reverse

/-- The extension of the file name in the words of the specification: the text from the
last '.' of the last path element to the end, empty when that element has no '.'. -/
def fileExtension (path : String) : String :=
  let elem := lastPathElement path
  if '.' ∈ elem then
    String.mk ('.' :: (elem.reverse.takeWhile (fun c => c ≠ '.')).reverse)
  else ""

/-! ## Invariants of the store -/

/-- No two artist rows have the same name and no two album rows have the same
(name, artist_id) pair. -/
structure Store.Dedup (s : Store) : Prop where
  artist_names : s.artists.Pairwise (fun a b => a.name ≠ b.name)
  album_keys : s.albums.Pairwise (fun a b => ¬ (a.name = b.name ∧ a.artist_id = b.artist_id))

/-- Every track row references an existing artist row and an existing album row of that
same artist. -/
def Store.Refs (s : Store) : Prop :=
  ∀ t ∈ s.tracks, (∃ a ∈ s.artists, a.id = t.artist_id) ∧
    ∃ al ∈ s.albums, al.id = t.album_id ∧ al.artist_id = t.artist_id

instance (s : Store) : Decidable s.Refs := by
  unfold Store.Refs
  infer_instance

/-- The invariant every call keeps: unique ids, deduplicated artists and albums, valid
references. -/
structure Store.Inv (s : Store) : Prop where
  wf : s.WF
  dedup : s.Dedup
  refs : s.Refs

/-! ## Calls on the library and the stores they reach -/

/-- A call of one of the methods that write to the store, with its arguments and with
what the outside world answers during the call. -/
inductive Call where
  | setArtist (artist : String)
  | setAlbum (album : String) (artistID : Int)
  | addMedia (env : Env) (filename : String)
  | rmFile (getwd : Except LibError String) (filePath : String)
  | rmDirectory (dirPath : String)

/-- The store after the call. -/
def Call.run : Call → Store → Store
  | .setArtist artist, s => (setArtistID s artist).1
  | .setAlbum album artistID, s => (setAlbumID s album artistID).1
  | .addMedia env filename, s => (AddMedia env s filename).1
  | .rmFile getwd filePath, s => removeFile getwd s filePath
  | .rmDirectory dirPath, s => removeDirectory s dirPath

/-- The store after a sequence of calls, first call first. -/
def runCalls (calls : List Call) (s : Store) : Store :=
  calls.foldl (fun st c => c.run st) s

/-- The call is one of setArtistID, setAlbumID, AddMedia. -/
def Call.isGetOrCreate : Call → Bool
  | .setArtist _ => true
  | .setAlbum _ _ => true
  | .addMedia _ _ => true
  | _ => false

/-- The call is one of AddMedia, removeFile, removeDirectory. -/
def Call.isFileEvent : Call → Bool
  | .addMedia _ _ => true
  | .rmFile _ _ => true
  | .rmDirectory _ => true
  | _ => false

/-- The store after AddMedia has been applied to each path in turn. -/
def addAll (env : Env) (paths : List String) (s : Store) : Store :=
  paths.foldl (fun st p => (AddMedia env st p).1) s

/-! ## What one ingestion does to the store -/

/-- How get-or-create changes the artists table: not at all, or by one new row with a
fresh id whose name no row had. -/
def ArtistsStep (l l' : List ArtistRow) (id : Int) (name : String) : Prop :=
  l' = l ∨ ((∀ r ∈ l, r.name ≠ name) ∧ l' = l ++ [⟨nextRowid (l.map (·.id)), name⟩] ∧
    id = nextRowid (l.map (·.id)))

/-- How get-or-create changes the albums table. -/
def AlbumsStep (l l' : List AlbumRow) (id : Int) (name : String) (artistID : Int) : Prop :=
  l' = l ∨ ((∀ r ∈ l, ¬ (r.name = name ∧ r.artist_id = artistID)) ∧
    l' = l ++ [⟨nextRowid (l.map (·.id)), name, artistID⟩] ∧ id = nextRowid (l.map (·.id)))

/-- What insertMediaIntoDatabase does to a store: get-or-create of the artist, then of
the album under that artist, then of the track under both. -/
structure Ingested (s : Store) (file : MediaFile) (p : String) (s' : Store)
    (artistID albumID : Int) : Prop where
  artists : ArtistsStep s.artists s'.artists artistID (storedName file.artist)
  artist_row : (⟨artistID, storedName file.artist⟩ : ArtistRow) ∈ s'.artists
  albums : AlbumsStep s.albums s'.albums albumID (storedName file.album) artistID
  album_row : (⟨albumID, storedName file.album, artistID⟩ : AlbumRow) ∈ s'.albums
  tracks :
    (s'.tracks = s.tracks ∧ ∃ t ∈ s.tracks, t.name = storedTitle file.title p ∧
        t.artist_id = artistID ∧ t.album_id = albumID) ∨
    (s'.tracks = s.tracks ++ [⟨nextRowid (s.tracks.map (·.id)), storedTitle file.title p,
        albumID, artistID, p, file.track⟩] ∧
      ∀ t ∈ s.tracks, ¬ (t.name = storedTitle file.title p ∧
        t.artist_id = artistID ∧ t.album_id = albumID))

/-- The joined rows one track contributes to the FROM clause. -/
def rowsOf (s : Store) (t : TrackRow) : List JoinedRow :=
  (leftJoin (s.albums.filter fun al => al.id = t.album_id)).flatMap fun al =>
    (leftJoin (s.artists.filter fun ar => ar.id = t.artist_id)).map fun ar =>
      { t := t, al := al, ar := ar }

/-- The state of the store after the files of the list done have been ingested, each with
a stored key of its own. -/
structure Indexed (tags : String → MediaFile) (s : Store) (done : List String) : Prop where
  wf : s.WF
  refs : s.Refs
  paths : s.tracks.map (·.fs_path) = done
  keys : ∀ t ∈ s.tracks, ∀ a ∈ s.artists, ∀ al ∈ s.albums,
    a.id = t.artist_id → al.id = t.album_id →
    (t.name, a.name, al.name) = storedKey (tags t.fs_path) t.fs_path

/-! ## Concrete stores and environments used as test inputs -/

/-- An environment in which no file exists. -/
def envNoFiles : Env := ⟨fun p => some (.statFailed p), fun _ => .error "unreadable"⟩

/-- An environment in which every file exists and carries no tags at all. -/
def envUntagged : Env := ⟨fun _ => none, fun _ => .ok ⟨"", "", "", 0⟩⟩

/-- An environment in which one tagged file exists. -/
def envTagged : Env :=
  ⟨fun _ => none, fun _ => .ok ⟨"Artist Testoff", "Album Of Tests", "Another One", 2⟩⟩

/-- Tags of two test files: the same album and artist, different titles. -/
def sampleTags (p : String) : MediaFile :=
  if p = "/lib/test_file_one.mp3" then ⟨"Artist Testoff", "Album Of Tests", "Tittled Track", 1⟩
  else ⟨"Artist Testoff", "Album Of Tests", "Another One", 2⟩

/-- An environment in which every file exists and carries the tags of sampleTags. -/
def envSample : Env := ⟨fun _ => none, fun p => .ok (sampleTags p)⟩

/-- A store holding one track. -/
def storeOne : Store :=
  ⟨[⟨1, "Buggy Bugoff"⟩], [⟨1, "Return Of The Bugs", 1⟩],
   [⟨1, "Payback", 1, 1, "/lib/folder_one/third_file.mp3", 1⟩], 1⟩

/-- A store in which artist 2 already has an album named Unknown, as left by
setArtistID("Artist Testoff"), setArtistID("Buggy Bugoff"), setAlbumID("", 2). -/
def storeUnknownAlbum : Store :=
  ⟨[⟨1, "Artist Testoff"⟩, ⟨2, "Buggy Bugoff"⟩], [⟨1, "Unknown", 2⟩], [], 1⟩

/-- A sequence of get-or-create calls used as a test input. -/
def sampleGetOrCreateCalls : List Call :=
  [.setArtist "", .addMedia envUntagged "/a/x.mp3", .setAlbum "" 1, .setArtist "Unknown",
   .setAlbum "Unknown" 7, .addMedia envUntagged "/b/y.mp3"]

/-- A sequence of file events used as a test input. -/
def sampleFileEvents : List Call :=
  [.addMedia envUntagged "/a/x.mp3", .addMedia envUntagged "/a/b/y.mp3",
   .rmFile (.ok "/") "/a/x.mp3", .rmDirectory "/a/b/", .addMedia envUntagged "/c/z.mp3"]

/-- A store holding two tracks in sibling directories whose names differ in one character. -/
def storeSiblings : Store :=
  ⟨[⟨1, "New Artist 2"⟩], [⟨1, "Unexpected Album", 1⟩],
   [⟨1, "Added Song", 1, 1, "/lib/to_be_moved/test_file_added.mp3", 1⟩,
    ⟨2, "Other Song", 1, 1, "/lib/to-be-moved/other.mp3", 2⟩], 2⟩

/-! ## Notions used to state what Search matches -/

/-- A store holding two tracks of one album. -/
def storeAlbumOfTests : Store :=
  ⟨[⟨1, "Artist Testoff"⟩], [⟨1, "Album Of Tests", 1⟩],
   [⟨1, "Another One", 1, 1, "/lib/test_file_two.mp3", 2⟩,
    ⟨2, "Tittled Track", 1, 1, "/lib/test_file_one.mp3", 1⟩], 2⟩

/-- The order the results are claimed to come in: ascending by album name (binary text
order) and, among results of equal album name, ascending by track number. -/
def resultLE (a b : SearchResult) : Prop :=
  a.Album.toList < b.Album.toList ∨ (a.Album = b.Album ∧ a.TrackNumber ≤ b.TrackNumber)

/-! ## The library object: Close, Truncate, Initialize -/

/-- Go unicode.IsSpace. -/
def goIsSpace (c : Char) : Bool :=
  let n := c.toNat
  n = 0x20 || (0x09 ≤ n && n ≤ 0x0D) || n = 0x85 || n = 0xA0 || n = 0x1680 ||
    (0x2000 ≤ n && n ≤ 0x200A) || n = 0x2028 || n = 0x2029 || n = 0x202F || n = 0x205F ||
    n = 0x3000

/-- Go strings.TrimSpace. -/
def trimSpace (s : String) : String :=
  String.mk ((s.toList.dropWhile goIsSpace).reverse.dropWhile goIsSpace).reverse

/-- Go strings.Split(s, ";"). -/
def splitSemicolon (s : String) : List String :=
  (s.toList.splitOn ';').map String.mk

/-- State of a Go channel value. -/
inductive ChanState where
  | isOpen
  | isClosed
  deriving DecidableEq, Repr

/-- The fields of LocalLibrary that Close, Truncate and Initialize work on: the location
of the database file, the handle lib.db (none is nil) with the contents of the open
database, and the channel lib.mediaChan (none is nil). -/
structure LocalLibrary (σ : Type) where
  database : String
  db : Option σ
  mediaChan : Option ChanState
  deriving DecidableEq

/-- Modelled from the spec: stopWatcher, WaitScan and what the wait groups wait for are
not among the sources. Shutdown stops the Watcher first, then waits for in-flight scans to
finish, then closes the work queue, waits for the writer and closes the store connection;
the steps outside the sources are recorded as actions that touch neither lib.mediaChan
nor lib.db. -/
inductive Action where
  | stopWatcher
  | waitScan
  | waitWalk
  | closeMediaChan
  | waitDbWriter
  | closeDb
  | osRemove (path : String)
  deriving DecidableEq, Repr

/-- A run-time panic of Go. -/
inductive Panic where
  | closeOfClosedChannel
  deriving DecidableEq, Repr

/-- NewLocalLibrary: the database is opened and the media channel made. -/
def NewLocalLibrary {σ : Type} (databasePath : String) (contents : σ) : LocalLibrary σ :=
  { database := databasePath, db := some contents, mediaChan := some .isOpen }

/-- Close closes the database connection. It is safe to call it as many times as you
want. The result is the library afterwards and the actions taken, in their order. -/
def Close {σ : Type} (lib : LocalLibrary σ) : Except Panic (LocalLibrary σ × List Action) :=
  let acts := [Action.stopWatcher, Action.waitScan, Action.waitWalk]
  match (match lib.mediaChan with
      | none => Except.ok (lib, acts)
      | some .isOpen => Except.ok ({ lib with mediaChan := none }, acts ++ [Action.closeMediaChan])
      | some .isClosed => Except.error Panic.closeOfClosedChannel) with
  | .error p => .error p
  | .ok (lib1, acts1) =>
    let acts2 := acts1 ++ [Action.waitDbWriter]
    match lib1.db with
    | none => .ok (lib1, acts2)
    | some _ => .ok ({ lib1 with db := none }, acts2 ++ [Action.closeDb])

/-- Truncate closes the library and removes its database file; osRemove is what
os.Remove would answer. -/
def Truncate {σ : Type} (osRemove : String → Option LibError) (lib : LocalLibrary σ) :
    Except Panic (LocalLibrary σ × List Action × Option LibError) :=
  match Close lib with
  | .error p => .error p
  | .ok (lib1, acts) =>
    .ok (lib1, acts ++ [Action.osRemove lib1.database], osRemove lib1.database)

/-- The world outside the library as Initialize sees it: os.Stat of the database file
(the size when the error is nil), helpers.ProjectRoot, ioutil.ReadFile, and lib.db.Exec on
the open database, which gives the database afterwards and the error (none is nil). -/
structure InitEnv (σ : Type) where
  stat : String → Option Int
  projectRoot : Except LibError String
  readFile : String → Except LibError String
  exec : σ → String → σ × Option LibError

/-- Returns the SQL schema for the library, stored under sqls/library_schema.sql. -/
def readSchema {σ : Type} (env : InitEnv σ) : Except LibError String :=
  match env.projectRoot with
  | .error err => .error err
  | .ok projRoot =>
    let sqlSchemaPath := filepathJoin [projRoot, "sqls", "library_schema.sql"]
    match env.readFile sqlSchemaPath with
    | .error err => .error err
    | .ok out => if out.length < 1 then .error .schemaEmpty else .ok out

/-- The loop of Initialize over the pieces of the schema: the queries executed, the
database afterwards and the error returned. -/
def initLoop {σ : Type} (exec : σ → String → σ × Option LibError) :
    σ → List String → List String × σ × Option LibError
  | st, [] => ([], st, none)
  | st, query :: rest =>
    let query := trimSpace query
    if query.length < 1 then initLoop exec st rest
    else
      match exec st query with
      | (st1, some err) => ([query], st1, some err)
      | (st1, none) =>
        let (executed, st2, err) := initLoop exec st1 rest
        (query :: executed, st2, err)

/-- Initialize should be run once every time a library is created. The result is the
library afterwards, the queries executed in their order, and the error returned. -/
def Initialize {σ : Type} (env : InitEnv σ) (lib : LocalLibrary σ) :
    LocalLibrary σ × List String × Option LibError :=
  let found : Bool :=
    match env.stat lib.database with
    | some size => decide (size > 0)
    | none => false
  if found then (lib, [], none)
  else
    match readSchema env with
    | .error err => (lib, [], some err)
    | .ok sqlSchema =>
      match lib.db with
      | none => (lib, [], some .libraryNotOpened)
      | some st =>
        let queries := splitSemicolon sqlSchema
        let (executed, st1, err) := initLoop env.exec st queries
        ({ lib with db := some st1 }, executed, err)

/-- The statements of a schema text in the words of the specification: the pieces of the
text split at ';', each trimmed of white space, the empty ones left out, in their order. -/
def schemaStatements (schema : String) : List String :=
  ((splitSemicolon schema).map trimSpace).filter (fun q => q ≠ "")

/-- The database after the statements have been executed one after the other. -/
def stateAfter {σ : Type} (exec : σ → String → σ × Option LibError) : σ → List String → σ
  | st, [] => st
  | st, q :: qs => stateAfter exec (exec st q).1 qs

/-- Each statement, executed after the ones before it, succeeds. -/
def allSucceed {σ : Type} (exec : σ → String → σ × Option LibError) : σ → List String → Prop
  | _, [] => True
  | st, q :: qs => (exec st q).2 = none ∧ allSucceed exec (exec st q).1 qs

/-- A toy engine for test inputs: the database is the list of statements executed so far;
a statement that starts with the word drop fails. -/
def toyExec (st : List String) (q : String) : List String × Option LibError :=
  if "drop".toList <+: q.toList then (st, some (.engine q)) else (st ++ [q], none)

/-- A toy world for test inputs: no database file yet, a schema of three statements. -/
def toyInitEnv : InitEnv (List String) :=
  { stat := fun _ => none
    projectRoot := .ok "/proj"
    readFile := fun _ => .ok "create table a;\n create table b ;\n\n"
    exec := toyExec }

/-! ## Decimal numerals -/

/-- A decimal digit. -/
def isDigit (c : Char) : Bool :=
  48 ≤ c.toNat && c.toNat ≤ 57

/-- The number a run of decimal digits stands for. -/
def digitsValue (ds : List Char) : Int :=
  ds.foldl (fun n c => 10 * n + ((c.toNat : Int) - 48)) 0

/-- A numeric token: a non-empty run of decimal digits. -/
def isNumeric (ds : List Char) : Bool :=
  !ds.isEmpty && ds.all isDigit

/-! ## Web server handlers -/

/-- Go strings.SplitN(s, sep, 2) for a separator of one character: the text before the
first separator and the unsplit remainder after it, or the text alone when it holds no
separator. -/
def splitN2 (s : String) (sep : Char) : List String :=
  if sep ∈ s.toList then
    [String.mk (s.toList.takeWhile (fun c => c ≠ sep)),
     String.mk (s.toList.dropWhile (fun c => c ≠ sep)).tail]
  else [s]

/-- Compares the authentication header with the stored user and password and returns
true if they pass. decodeString is base64.StdEncoding.DecodeString followed by string(b);
none is a non-nil error. -/
def authenticate (decodeString : String → Option String) (username password auth : String) :
    Bool :=
  match splitN2 auth ' ' with
  | [scheme, payload] =>
    if scheme ≠ "Basic" then false
    else
      match decodeString payload with
      | none => false
      | some b =>
        match splitN2 b ':' with
        | [user, pass] => decide (user = username) && decide (pass = password)
        | _ => false
  | _ => false

/-- The value of a character of the standard base64 alphabet. -/
def base64Value (c : Char) : Option Nat :=
  let n := c.toNat
  if 65 ≤ n ∧ n ≤ 90 then some (n - 65)
  else if 97 ≤ n ∧ n ≤ 122 then some (n - 71)
  else if 48 ≤ n ∧ n ≤ 57 then some (n + 4)
  else if c = '+' then some 62
  else if c = '/' then some 63
  else none

/-- The bytes of the base64 text, four characters at a time; padding closes the text. -/
def base64Bytes : List Char → Option (List Nat)
  | [] => some []
  | [a, b, '=', '='] =>
    match base64Value a, base64Value b with
    | some x, some y => some [(x * 4 + y / 16) % 256]
    | _, _ => none
  | [a, b, c, '='] =>
    match base64Value a, base64Value b, base64Value c with
    | some x, some y, some z => some [(x * 4 + y / 16) % 256, (y * 16 + z / 4) % 256]
    | _, _, _ => none
  | a :: b :: c :: d :: rest =>
    match base64Value a, base64Value b, base64Value c, base64Value d, base64Bytes rest with
    | some x, some y, some z, some w, some more =>
      some ((x * 4 + y / 16) % 256 :: (y * 16 + z / 4) % 256 :: (z * 64 + w) % 256 :: more)
    | _, _, _, _, _ => none
  | _ => none

/-- The decoder base64.StdEncoding.DecodeString followed by string(b), for test inputs:
defined on the texts that decode to ASCII bytes, each read as the character of its code. -/
def base64DecodeAscii (payload : String) : Option String :=
  match base64Bytes (payload.toList.filter (fun c => c ≠ '\r' ∧ c ≠ '\n')) with
  | none => none
  | some bytes => if bytes.all (fun b => b < 128) then some (String.mk (bytes.map Char.ofNat)) else none

/-- Go strconv.Atoi on a 64-bit platform: the value and the error (none is nil). A text
that is not a decimal integer (an optional sign, then digits) gives 0 and an error, a
number out of range the nearest bound and an error. -/
def strconvAtoi (s : String) : Int × Option LibError :=
  let digits :=
    match s.toList with
    | '+' :: rest => rest
    | '-' :: rest => rest
    | cs => cs
  if isNumeric digits then
    let v := if s.toList.head? = some '-' then - digitsValue digits else digitsValue digits
    if v > 9223372036854775807 then (9223372036854775807, some (.atoiError s))
    else if v < -9223372036854775808 then (-9223372036854775808, some (.atoiError s))
    else (v, none)
  else (0, some (.atoiError s))

/-- Go filepath.Dir: all but the last element of the path, cleaned. -/
def filepathDir (path : String) : String :=
  filepathClean (String.mk (path.toList.reverse.dropWhile (fun c => c ≠ '/')).reverse)

/-- What find does, in order: the not-found response written
(http.NotFoundHandler().ServeHTTP), the library asked for the path of an id
(fh.library.GetFilePath), the path looked up on disk (os.Stat), a file served
(http.FileServer of the directory, with the request path set to the file name). -/
inductive WebAction where
  | notFound
  | getFilePath (id : Int)
  | stat (path : String)
  | serveFile (dir : String) (urlPath : String)
  deriving DecidableEq, Repr

/-- Actually searches through the library for this file and serves it if it is found.
Returns 404 if not. getFilePath is GetFilePath of the library behind the handler, stat
what os.Stat would answer (none is a nil error); the result is what find did and the
error it returns. -/
def find (getFilePath : Int → String) (stat : String → Option LibError) (urlPath : String) :
    List WebAction × Option LibError :=
  match strconvAtoi urlPath with
  | (id, err) =>
    let acts : List WebAction := if err ≠ none then [WebAction.notFound] else []
    let filePath := getFilePath id
    let acts := acts ++ [WebAction.getFilePath id, WebAction.stat filePath]
    match stat filePath with
    | some _ => (acts ++ [WebAction.notFound], none)
    | none =>
      (acts ++ [WebAction.serveFile (filepathDir filePath) ("/" ++ filepathBase filePath)],
        none)

/-- A disk on which the one file of storeOne exists and nothing else. -/
def statOneFile (path : String) : Option LibError :=
  if path = "/lib/folder_one/third_file.mp3" then none else some (.statFailed path)

/-! ## Row ids -/

theorem maxRowid_ge : ∀ (ids : List Int) (x : Int), x ∈ ids → ∃ m, maxRowid ids = some m ∧ x ≤ m := by
  intro ids
  induction ids with
  | nil => intro x hx; simp at hx
  | cons y ys ih =>
    intro x hx
    rcases List.mem_cons.mp hx with rfl | hx
    · cases h : maxRowid ys with
      | none => exact ⟨x, by simp [maxRowid, h], le_refl _⟩
      | some m => exact ⟨max x m, by simp [maxRowid, h], le_max_left _ _⟩
    · obtain ⟨m, hm, hle⟩ := ih x hx
      exact ⟨max y m, by simp [maxRowid, hm], le_trans hle (le_max_right _ _)⟩

theorem lt_nextRowid {ids : List Int} {x : Int} (hx : x ∈ ids) : x < nextRowid ids := by
  obtain ⟨m, hm, hle⟩ := maxRowid_ge ids x hx
  simp only [nextRowid, hm]
  omega

theorem nextRowid_not_mem (ids : List Int) : nextRowid ids ∉ ids :=
  fun h => lt_irrefl _ (lt_nextRowid h)

/-! ## Lookups and get-or-create -/

theorem GetArtistID_none {s : Store} {name : String}
    (h : s.artists.find? (fun r => r.name = name) = none) :
    GetArtistID s name = .error .errNoRows := by
  simp [GetArtistID, h]

theorem GetArtistID_some {s : Store} {name : String} {r : ArtistRow}
    (h : s.artists.find? (fun r => r.name = name) = some r) :
    GetArtistID s name = .ok r.id := by
  simp [GetArtistID, h]

theorem setArtistID_unfold (s : Store) (artist : String) :
    setArtistID s artist =
      match GetArtistID s (storedName artist) with
      | .ok id => (s, .ok id)
      | .error _ =>
        (insertArtist s (storedName artist), .ok (nextRowid (s.artists.map (·.id)))) := rfl

theorem setArtistID_cases (s : Store) (artist : String) :
    (∃ r ∈ s.artists, r.name = storedName artist ∧ setArtistID s artist = (s, .ok r.id)) ∨
    ((∀ r ∈ s.artists, r.name ≠ storedName artist) ∧
      setArtistID s artist =
        (insertArtist s (storedName artist), .ok (nextRowid (s.artists.map (·.id))))) := by
  rw [setArtistID_unfold]
  cases h : s.artists.find? (fun r => r.name = storedName artist) with
  | none =>
    right
    rw [GetArtistID_none h]
    refine ⟨?_, rfl⟩
    intro r hr
    simpa using List.find?_eq_none.mp h r hr
  | some r =>
    left
    rw [GetArtistID_some h]
    refine ⟨r, List.mem_of_find?_eq_some h, ?_, rfl⟩
    simpa using List.find?_some h

theorem GetAlbumID_none {s : Store} {name : String} {artistID : Int}
    (h : s.albums.find? (fun r => r.name = name ∧ r.artist_id = artistID) = none) :
    GetAlbumID s name artistID = .error .errNoRows := by
  unfold GetAlbumID
  rw [h]

theorem GetAlbumID_some {s : Store} {name : String} {artistID : Int} {r : AlbumRow}
    (h : s.albums.find? (fun r => r.name = name ∧ r.artist_id = artistID) = some r) :
    GetAlbumID s name artistID = .ok r.id := by
  unfold GetAlbumID
  rw [h]

theorem setAlbumID_unfold (s : Store) (album : String) (artistID : Int) :
    setAlbumID s album artistID =
      match GetAlbumID s (storedName album) artistID with
      | .ok id => (s, .ok id)
      | .error _ =>
        (insertAlbum s (storedName album) artistID, .ok (nextRowid (s.albums.map (·.id)))) := rfl

theorem setAlbumID_cases (s : Store) (album : String) (artistID : Int) :
    (∃ r ∈ s.albums, (r.name = storedName album ∧ r.artist_id = artistID) ∧
        setAlbumID s album artistID = (s, .ok r.id)) ∨
    ((∀ r ∈ s.albums, ¬ (r.name = storedName album ∧ r.artist_id = artistID)) ∧
      setAlbumID s album artistID =
        (insertAlbum s (storedName album) artistID, .ok (nextRowid (s.albums.map (·.id))))) := by
  rw [setAlbumID_unfold]
  cases h : s.albums.find? (fun r => r.name = storedName album ∧ r.artist_id = artistID) with
  | none =>
    right
    rw [GetAlbumID_none h]
    refine ⟨?_, rfl⟩
    intro r hr
    simpa using List.find?_eq_none.mp h r hr
  | some r =>
    left
    rw [GetAlbumID_some h]
    refine ⟨r, List.mem_of_find?_eq_some h, ?_, rfl⟩
    simpa using List.find?_some h

theorem GetTrackID_none {s : Store} {title : String} {artistID albumID : Int}
    (h : s.tracks.find?
      (fun r => r.name = title ∧ r.artist_id = artistID ∧ r.album_id = albumID) = none) :
    GetTrackID s title artistID albumID = .error .errNoRows := by
  unfold GetTrackID
  rw [h]

theorem GetTrackID_some {s : Store} {title : String} {artistID albumID : Int} {r : TrackRow}
    (h : s.tracks.find?
      (fun r => r.name = title ∧ r.artist_id = artistID ∧ r.album_id = albumID) = some r) :
    GetTrackID s title artistID albumID = .ok r.id := by
  unfold GetTrackID
  rw [h]

theorem setTrackID_unfold (s : Store) (title fsPath : String) (number artistID albumID : Int) :
    setTrackID s title fsPath number artistID albumID =
      match GetTrackID s (storedTitle title fsPath) artistID albumID with
      | .ok id => (s, .ok id)
      | .error _ =>
        (insertTrack s (storedTitle title fsPath) albumID artistID fsPath number,
          .ok (nextRowid (s.tracks.map (·.id)))) := rfl

theorem setTrackID_cases (s : Store) (title fsPath : String) (number artistID albumID : Int) :
    (∃ r ∈ s.tracks,
        (r.name = storedTitle title fsPath ∧ r.artist_id = artistID ∧ r.album_id = albumID) ∧
        setTrackID s title fsPath number artistID albumID = (s, .ok r.id)) ∨
    ((∀ r ∈ s.tracks,
        ¬ (r.name = storedTitle title fsPath ∧ r.artist_id = artistID ∧ r.album_id = albumID)) ∧
      setTrackID s title fsPath number artistID albumID =
        (insertTrack s (storedTitle title fsPath) albumID artistID fsPath number,
          .ok (nextRowid (s.tracks.map (·.id))))) := by
  rw [setTrackID_unfold]
  cases h : s.tracks.find?
      (fun r => r.name = storedTitle title fsPath ∧ r.artist_id = artistID ∧ r.album_id = albumID) with
  | none =>
    right
    rw [GetTrackID_none h]
    refine ⟨?_, rfl⟩
    intro r hr
    simpa using List.find?_eq_none.mp h r hr
  | some r =>
    left
    rw [GetTrackID_some h]
    refine ⟨r, List.mem_of_find?_eq_some h, ?_, rfl⟩
    simpa using List.find?_some h

theorem mediaExists_iff (s : Store) (p : String) :
    MediaExistsInLibrary s p = true ↔ ∃ t ∈ s.tracks, t.fs_path = p := by
  unfold MediaExistsInLibrary
  simp only [decide_eq_true_eq, ge_iff_le]
  rw [Nat.succ_le_iff, List.length_pos_iff_exists_mem]
  constructor
  · rintro ⟨t, ht⟩
    rw [List.mem_filter] at ht
    exact ⟨t, ht.1, by simpa using ht.2⟩
  · rintro ⟨t, ht, hp⟩
    exact ⟨t, List.mem_filter.mpr ⟨ht, by simpa using hp⟩⟩

/-! ## C1, C9: the early exits of AddMedia -/

/-- C1: when a track row with fs_path = p already exists, AddMedia(p) returns nil and
leaves the whole store (artists, albums, tracks: same rows, same ids) as it was, whatever
the file system and the tag reader would say about p. -/
theorem C1_addMedia_indexed_path_is_noop (env : Env) (s : Store) (p : String)
    (h : ∃ t ∈ s.tracks, t.fs_path = p) :
    AddMedia env s p = (s, none) := by
  unfold AddMedia
  rw [if_pos ((mediaExists_iff s p).mpr h)]

theorem C1_addMedia_indexed_path_is_noop_witness :
    (∃ t ∈ storeOne.tracks, t.fs_path = "/lib/folder_one/third_file.mp3") ∧
      AddMedia envNoFiles storeOne "/lib/folder_one/third_file.mp3" = (storeOne, none) :=
  have h : ∃ t ∈ storeOne.tracks, t.fs_path = "/lib/folder_one/third_file.mp3" :=
    ⟨_, List.mem_singleton.mpr rfl, by decide⟩
  ⟨h, C1_addMedia_indexed_path_is_noop envNoFiles storeOne _ h⟩

/-- C9: for a path p not yet indexed, if p does not exist on the file system (os.Stat
fails) or the tag reader cannot parse it, AddMedia(p) returns a non-nil error and the
store is unchanged. -/
theorem C9_addMedia_failure_changes_nothing (env : Env) (s : Store) (p : String)
    (hnew : ∀ t ∈ s.tracks, t.fs_path ≠ p)
    (hfail : env.stat p ≠ none ∨ ∃ msg, env.taglibRead p = .error msg) :
    (AddMedia env s p).1 = s ∧ (AddMedia env s p).2 ≠ none := by
  have hex : ¬ (MediaExistsInLibrary s p = true) := by
    rw [mediaExists_iff]
    rintro ⟨t, ht, hp⟩
    exact hnew t ht hp
  unfold AddMedia
  rw [if_neg hex]
  cases hs : env.stat p with
  | some err => simp
  | none =>
    rcases hfail with h | ⟨msg, hmsg⟩
    · exact absurd hs h
    · simp [hmsg]

theorem C9_addMedia_failure_changes_nothing_witness :
    (∀ t ∈ storeOne.tracks, t.fs_path ≠ "/lib/not_there") ∧
      (envNoFiles.stat "/lib/not_there" ≠ none ∨
        ∃ msg, envNoFiles.taglibRead "/lib/not_there" = .error msg) ∧
      (AddMedia envNoFiles storeOne "/lib/not_there").1 = storeOne ∧
      (AddMedia envNoFiles storeOne "/lib/not_there").2 ≠ none :=
  have h1 : ∀ t ∈ storeOne.tracks, t.fs_path ≠ "/lib/not_there" := by decide
  have h2 : envNoFiles.stat "/lib/not_there" ≠ none ∨
      ∃ msg, envNoFiles.taglibRead "/lib/not_there" = .error msg := Or.inl (by decide)
  ⟨h1, h2, C9_addMedia_failure_changes_nothing envNoFiles storeOne _ h1 h2⟩

/-! ## C5: lookups report a missing row as an error -/

/-- C5: GetArtistID, GetAlbumID and GetTrackID return a non-nil error exactly when no row
matches the key; when some row matches they return, with a nil error, the id of a row
that matches the key.  So a missing row is never reported as id 0 with a nil error. -/
theorem C5_lookup_fails_iff_no_row (s : Store) (name title : String) (artistID albumID : Int) :
    (((∃ e, GetArtistID s name = .error e) ↔ ∀ r ∈ s.artists, r.name ≠ name) ∧
      ((∃ r ∈ s.artists, r.name = name) →
        ∃ r ∈ s.artists, r.name = name ∧ GetArtistID s name = .ok r.id)) ∧
    (((∃ e, GetAlbumID s name artistID = .error e) ↔
        ∀ r ∈ s.albums, ¬ (r.name = name ∧ r.artist_id = artistID)) ∧
      ((∃ r ∈ s.albums, r.name = name ∧ r.artist_id = artistID) →
        ∃ r ∈ s.albums, (r.name = name ∧ r.artist_id = artistID) ∧
          GetAlbumID s name artistID = .ok r.id)) ∧
    (((∃ e, GetTrackID s title artistID albumID = .error e) ↔
        ∀ r ∈ s.tracks, ¬ (r.name = title ∧ r.artist_id = artistID ∧ r.album_id = albumID)) ∧
      ((∃ r ∈ s.tracks, r.name = title ∧ r.artist_id = artistID ∧ r.album_id = albumID) →
        ∃ r ∈ s.tracks, (r.name = title ∧ r.artist_id = artistID ∧ r.album_id = albumID) ∧
          GetTrackID s title artistID albumID = .ok r.id)) := by
  refine ⟨?_, ?_, ?_⟩
  · cases h : s.artists.find? (fun r => r.name = name) with
    | none =>
      have hno : ∀ r ∈ s.artists, r.name ≠ name := fun r hr => by
        simpa using List.find?_eq_none.mp h r hr
      rw [GetArtistID_none h]
      exact ⟨⟨fun _ => hno, fun _ => ⟨_, rfl⟩⟩, fun ⟨r, hr, hn⟩ => absurd hn (hno r hr)⟩
    | some r0 =>
      have hmem := List.mem_of_find?_eq_some h
      have hname : r0.name = name := by simpa using List.find?_some h
      rw [GetArtistID_some h]
      refine ⟨⟨fun ⟨e, he⟩ => (by cases he), fun hno => absurd hname (hno r0 hmem)⟩, ?_⟩
      exact fun _ => ⟨r0, hmem, hname, rfl⟩
  · cases h : s.albums.find? (fun r => r.name = name ∧ r.artist_id = artistID) with
    | none =>
      have hno : ∀ r ∈ s.albums, ¬ (r.name = name ∧ r.artist_id = artistID) := fun r hr => by
        simpa using List.find?_eq_none.mp h r hr
      rw [GetAlbumID_none h]
      exact ⟨⟨fun _ => hno, fun _ => ⟨_, rfl⟩⟩, fun ⟨r, hr, hn⟩ => absurd hn (hno r hr)⟩
    | some r0 =>
      have hmem := List.mem_of_find?_eq_some h
      have hname : r0.name = name ∧ r0.artist_id = artistID := by
        simpa using List.find?_some h
      rw [GetAlbumID_some h]
      refine ⟨⟨fun ⟨e, he⟩ => (by cases he), fun hno => absurd hname (hno r0 hmem)⟩, ?_⟩
      exact fun _ => ⟨r0, hmem, hname, rfl⟩
  · cases h : s.tracks.find?
        (fun r => r.name = title ∧ r.artist_id = artistID ∧ r.album_id = albumID) with
    | none =>
      have hno : ∀ r ∈ s.tracks,
          ¬ (r.name = title ∧ r.artist_id = artistID ∧ r.album_id = albumID) := fun r hr => by
        simpa using List.find?_eq_none.mp h r hr
      rw [GetTrackID_none h]
      exact ⟨⟨fun _ => hno, fun _ => ⟨_, rfl⟩⟩, fun ⟨r, hr, hn⟩ => absurd hn (hno r hr)⟩
    | some r0 =>
      have hmem := List.mem_of_find?_eq_some h
      have hname : r0.name = title ∧ r0.artist_id = artistID ∧ r0.album_id = albumID := by
        simpa using List.find?_some h
      rw [GetTrackID_some h]
      refine ⟨⟨fun ⟨e, he⟩ => (by cases he), fun hno => absurd hname (hno r0 hmem)⟩, ?_⟩
      exact fun _ => ⟨r0, hmem, hname, rfl⟩

/-! ## C6: an empty artist or album tag is stored as Unknown -/

theorem storedName_empty : storedName "" = "Unknown" := by decide

theorem storedName_unknown : storedName "Unknown" = "Unknown" := by decide

theorem storedName_idem (tag : String) : storedName (storedName tag) = storedName tag := by
  by_cases h : tag.length < 1
  · have e : storedName tag = "Unknown" := by simp only [storedName, if_pos h]; rfl
    rw [e, storedName_unknown]
  · have e : storedName tag = tag := by simp only [storedName, if_neg h]
    rw [e, e]

/-- C6: setArtistID("") has the same result and the same effect on the store as
setArtistID("Unknown"), and setAlbumID("", a) the same as setAlbumID("Unknown", a).
Hence files with an empty artist tag share one artist row named Unknown: setArtistID("")
returns the id of a row named Unknown, and calling it again returns that id again and
adds no row. -/
theorem C6_empty_name_is_Unknown (s : Store) (a : Int) :
    setArtistID s "" = setArtistID s "Unknown" ∧
    setAlbumID s "" a = setAlbumID s "Unknown" a ∧
    (∃ r ∈ (setArtistID s "").1.artists, r.name = "Unknown" ∧
      (setArtistID s "").2 = .ok r.id ∧
      setArtistID (setArtistID s "").1 "" = ((setArtistID s "").1, .ok r.id)) := by
  refine ⟨?_, ?_, ?_⟩
  · rw [setArtistID_unfold, setArtistID_unfold, storedName_empty, storedName_unknown]
  · rw [setAlbumID_unfold, setAlbumID_unfold, storedName_empty, storedName_unknown]
  · have hfirst : ∀ (l : List ArtistRow) (r : ArtistRow),
        l.find? (fun x => x.name = "Unknown") = some r →
        ∀ s1 : Store, s1.artists = l → setArtistID s1 "" = (s1, .ok r.id) := by
      intro l r hr s1 hs1
      rw [setArtistID_unfold, storedName_empty, GetArtistID_some (hs1 ▸ hr)]
    cases h : s.artists.find? (fun x => x.name = "Unknown") with
    | some r =>
      have e := hfirst _ r h s rfl
      refine ⟨r, ?_, ?_, ?_, ?_⟩
      · rw [e]; exact List.mem_of_find?_eq_some h
      · simpa using List.find?_some h
      · rw [e]
      · rw [e]; exact e
    | none =>
      have e : setArtistID s "" =
          (insertArtist s "Unknown", .ok (nextRowid (s.artists.map (·.id)))) := by
        rw [setArtistID_unfold, storedName_empty, GetArtistID_none h]
      have hfind : (insertArtist s "Unknown").artists.find? (fun x => x.name = "Unknown") =
          some ⟨nextRowid (s.artists.map (·.id)), "Unknown"⟩ := by
        simp only [insertArtist, List.find?_append, h, Option.none_or]
        simp
      refine ⟨⟨nextRowid (s.artists.map (·.id)), "Unknown"⟩, ?_, rfl, ?_, ?_⟩
      · rw [e]; simp [insertArtist]
      · rw [e]
      · rw [e]
        exact hfirst _ _ hfind _ rfl

/-! ## What get-or-create does to the tables -/

theorem nodup_ids_append_fresh {α : Type} (f : α → Int) (l : List α) (x : α)
    (h : (l.map f).Nodup) (hx : f x = nextRowid (l.map f)) : ((l ++ [x]).map f).Nodup := by
  rw [List.map_append, List.nodup_append]
  refine ⟨h, by simp, ?_⟩
  intro i hi hi2
  simp only [List.map_cons, List.map_nil, List.mem_singleton] at hi2
  rw [hi2, hx] at hi
  exact nextRowid_not_mem _ hi

theorem ArtistsStep.artists_subset {l l' : List ArtistRow} {id : Int} {name : String}
    (h : ArtistsStep l l' id name) : l ⊆ l' := by
  rcases h with h | ⟨_, h, _⟩ <;> rw [h]
  · exact fun _ hx => hx
  · exact List.subset_append_left _ _

theorem ArtistsStep.artists_nodup {l l' : List ArtistRow} {id : Int} {name : String}
    (h : ArtistsStep l l' id name) (hl : (l.map (·.id)).Nodup) : (l'.map (·.id)).Nodup := by
  rcases h with h | ⟨_, h, _⟩ <;> rw [h]
  · exact hl
  · exact nodup_ids_append_fresh _ _ _ hl rfl

theorem ArtistsStep.names {l l' : List ArtistRow} {id : Int} {name : String}
    (h : ArtistsStep l l' id name) (hl : l.Pairwise (fun a b => a.name ≠ b.name)) :
    l'.Pairwise (fun a b => a.name ≠ b.name) := by
  rcases h with h | ⟨hno, h, _⟩ <;> rw [h]
  · exact hl
  · rw [List.pairwise_append]
    refine ⟨hl, List.pairwise_singleton _ _, ?_⟩
    intro a ha b hb
    rw [List.mem_singleton] at hb
    rw [hb]
    exact hno a ha

theorem AlbumsStep.albums_subset {l l' : List AlbumRow} {id : Int} {name : String} {artistID : Int}
    (h : AlbumsStep l l' id name artistID) : l ⊆ l' := by
  rcases h with h | ⟨_, h, _⟩ <;> rw [h]
  · exact fun _ hx => hx
  · exact List.subset_append_left _ _

theorem AlbumsStep.albums_nodup {l l' : List AlbumRow} {id : Int} {name : String} {artistID : Int}
    (h : AlbumsStep l l' id name artistID) (hl : (l.map (·.id)).Nodup) :
    (l'.map (·.id)).Nodup := by
  rcases h with h | ⟨_, h, _⟩ <;> rw [h]
  · exact hl
  · exact nodup_ids_append_fresh _ _ _ hl rfl

theorem AlbumsStep.keys {l l' : List AlbumRow} {id : Int} {name : String} {artistID : Int}
    (h : AlbumsStep l l' id name artistID)
    (hl : l.Pairwise (fun a b => ¬ (a.name = b.name ∧ a.artist_id = b.artist_id))) :
    l'.Pairwise (fun a b => ¬ (a.name = b.name ∧ a.artist_id = b.artist_id)) := by
  rcases h with h | ⟨hno, h, _⟩ <;> rw [h]
  · exact hl
  · rw [List.pairwise_append]
    refine ⟨hl, List.pairwise_singleton _ _, ?_⟩
    intro a ha b hb
    rw [List.mem_singleton] at hb
    rw [hb]
    exact hno a ha

/-- What setArtistID does to a store. -/
theorem setArtistID_step (s : Store) (artist : String) :
    ∃ id, (setArtistID s artist).2 = .ok id ∧
      ArtistsStep s.artists (setArtistID s artist).1.artists id (storedName artist) ∧
      (⟨id, storedName artist⟩ : ArtistRow) ∈ (setArtistID s artist).1.artists ∧
      (setArtistID s artist).1.albums = s.albums ∧
      (setArtistID s artist).1.tracks = s.tracks := by
  rcases setArtistID_cases s artist with ⟨r, hr, hn, e⟩ | ⟨hno, e⟩
  · rw [e]
    refine ⟨r.id, rfl, Or.inl rfl, ?_, rfl, rfl⟩
    rw [← hn]
    exact hr
  · rw [e]
    refine ⟨_, rfl, Or.inr ⟨hno, rfl, rfl⟩, ?_, rfl, rfl⟩
    simp [insertArtist]

/-- What setAlbumID does to a store. -/
theorem setAlbumID_step (s : Store) (album : String) (artistID : Int) :
    ∃ id, (setAlbumID s album artistID).2 = .ok id ∧
      AlbumsStep s.albums (setAlbumID s album artistID).1.albums id (storedName album) artistID ∧
      (⟨id, storedName album, artistID⟩ : AlbumRow) ∈ (setAlbumID s album artistID).1.albums ∧
      (setAlbumID s album artistID).1.artists = s.artists ∧
      (setAlbumID s album artistID).1.tracks = s.tracks := by
  rcases setAlbumID_cases s album artistID with ⟨r, hr, ⟨hn, ha⟩, e⟩ | ⟨hno, e⟩
  · rw [e]
    refine ⟨r.id, rfl, Or.inl rfl, ?_, rfl, rfl⟩
    rw [← hn, ← ha]
    exact hr
  · rw [e]
    refine ⟨_, rfl, Or.inr ⟨hno, rfl, rfl⟩, ?_, rfl, rfl⟩
    simp [insertAlbum]

theorem insertMedia_ingested (s : Store) (file : MediaFile) (p : String) :
    (insertMediaIntoDatabase s file p).2 = none ∧
    ∃ artistID albumID,
      Ingested s file p (insertMediaIntoDatabase s file p).1 artistID albumID := by
  obtain ⟨artistID, h1, hA, hArow, hAal, hAtr⟩ := setArtistID_step s file.artist
  generalize hs1 : setArtistID s file.artist = r1 at h1 hA hArow hAal hAtr
  obtain ⟨s1, res1⟩ := r1
  simp only at h1 hA hArow hAal hAtr
  subst h1
  obtain ⟨albumID, h2, hB, hBrow, hBar, hBtr⟩ := setAlbumID_step s1 file.album artistID
  generalize hs2 : setAlbumID s1 file.album artistID = r2 at h2 hB hBrow hBar hBtr
  obtain ⟨s2, res2⟩ := r2
  simp only at h2 hB hBrow hBar hBtr
  subst h2
  have e : insertMediaIntoDatabase s file p =
      match setTrackID s2 file.title p file.track artistID albumID with
      | (s3, .error err) => (s3, some err)
      | (s3, .ok _) => (s3, none) := by
    simp only [insertMediaIntoDatabase, hs1, hs2]
  rw [e]
  rcases setTrackID_cases s2 file.title p file.track artistID albumID with
    ⟨t, ht, hk, e3⟩ | ⟨hno, e3⟩
  · rw [e3]
    refine ⟨rfl, artistID, albumID, ?_⟩
    refine ⟨?_, ?_, ?_, ?_, ?_⟩
    · simpa [hBar] using hA
    · simpa [hBar] using hArow
    · simpa [hAal] using hB
    · simpa using hBrow
    · left
      simp only [hBtr, hAtr]
      exact ⟨trivial, t, by simpa [hBtr, hAtr] using ht, hk⟩
  · rw [e3]
    refine ⟨rfl, artistID, albumID, ?_⟩
    refine ⟨?_, ?_, ?_, ?_, ?_⟩
    · simpa [insertTrack, hBar] using hA
    · simpa [insertTrack, hBar] using hArow
    · simpa [insertTrack, hAal] using hB
    · simpa [insertTrack] using hBrow
    · right
      refine ⟨by simp [insertTrack, hBtr, hAtr], ?_⟩
      intro t ht
      exact hno t (by simpa [hBtr, hAtr] using ht)

theorem Ingested.wf {s s' : Store} {file : MediaFile} {p : String} {artistID albumID : Int}
    (h : Ingested s file p s' artistID albumID) (hs : s.WF) : s'.WF := by
  refine ⟨h.artists.artists_nodup hs.artists_ids, h.albums.albums_nodup hs.albums_ids, ?_⟩
  rcases h.tracks with ⟨e, _⟩ | ⟨e, _⟩ <;> rw [e]
  · exact hs.tracks_ids
  · exact nodup_ids_append_fresh _ _ _ hs.tracks_ids rfl

theorem Ingested.dedup {s s' : Store} {file : MediaFile} {p : String} {artistID albumID : Int}
    (h : Ingested s file p s' artistID albumID) (hs : s.Dedup) : s'.Dedup :=
  ⟨h.artists.names hs.artist_names, h.albums.keys hs.album_keys⟩

theorem refs_mono {s s' : Store} (hs : s.Refs) (ha : s.artists ⊆ s'.artists)
    (hb : s.albums ⊆ s'.albums) :
    ∀ t ∈ s.tracks, (∃ a ∈ s'.artists, a.id = t.artist_id) ∧
      ∃ al ∈ s'.albums, al.id = t.album_id ∧ al.artist_id = t.artist_id := by
  intro t ht
  obtain ⟨⟨a, ha1, ha2⟩, al, hb1, hb2⟩ := hs t ht
  exact ⟨⟨a, ha ha1, ha2⟩, al, hb hb1, hb2⟩

theorem Ingested.refs {s s' : Store} {file : MediaFile} {p : String} {artistID albumID : Int}
    (h : Ingested s file p s' artistID albumID) (hs : s.Refs) : s'.Refs := by
  have hold := refs_mono hs h.artists.artists_subset h.albums.albums_subset
  intro t ht
  rcases h.tracks with ⟨e, _⟩ | ⟨e, _⟩
  · rw [e] at ht
    exact hold t ht
  · rw [e, List.mem_append, List.mem_singleton] at ht
    rcases ht with ht | rfl
    · exact hold t ht
    · exact ⟨⟨_, h.artist_row, rfl⟩, _, h.album_row, rfl, rfl⟩

/-! ## Every call keeps the invariant -/

theorem Store.empty_inv : Store.empty.Inv :=
  ⟨⟨List.nodup_nil, List.nodup_nil, List.nodup_nil⟩, ⟨List.Pairwise.nil, List.Pairwise.nil⟩,
    fun _ h => by simp [Store.empty] at h⟩

theorem AddMedia_cases (env : Env) (s : Store) (p : String) :
    (AddMedia env s p).1 = s ∨
      ∃ file, env.taglibRead p = .ok file ∧ env.stat p = none ∧
        MediaExistsInLibrary s p = false ∧
        AddMedia env s p = insertMediaIntoDatabase s file p := by
  unfold AddMedia
  cases hex : MediaExistsInLibrary s p with
  | true => left; simp
  | false =>
    cases hs : env.stat p with
    | some err => left; simp
    | none =>
      cases hr : env.taglibRead p with
      | error msg => left; simp
      | ok file => right; exact ⟨file, rfl, rfl, rfl, by simp⟩

theorem removeFile_tracks (getwd : Except LibError String) (s : Store) (filePath : String) :
    (removeFile getwd s filePath).artists = s.artists ∧
    (removeFile getwd s filePath).albums = s.albums ∧
    (removeFile getwd s filePath).tracks.Sublist s.tracks := by
  unfold removeFile
  cases filepathAbs getwd filePath with
  | error e => exact ⟨rfl, rfl, List.Sublist.refl _⟩
  | ok fullPath => exact ⟨rfl, rfl, List.filter_sublist _⟩

theorem removeDirectory_tracks (s : Store) (dirPath : String) :
    (removeDirectory s dirPath).artists = s.artists ∧
    (removeDirectory s dirPath).albums = s.albums ∧
    (removeDirectory s dirPath).tracks.Sublist s.tracks := by
  unfold removeDirectory
  dsimp only
  split
  · exact ⟨rfl, rfl, List.Sublist.refl _⟩
  · exact ⟨rfl, rfl, List.filter_sublist _⟩

theorem inv_of_fewer_tracks {s s' : Store} (hs : s.Inv) (ha : s'.artists = s.artists)
    (hb : s'.albums = s.albums) (ht : s'.tracks.Sublist s.tracks) : s'.Inv := by
  refine ⟨⟨?_, ?_, ?_⟩, ⟨?_, ?_⟩, ?_⟩
  · rw [ha]; exact hs.wf.artists_ids
  · rw [hb]; exact hs.wf.albums_ids
  · exact (hs.wf.tracks_ids).sublist (ht.map _)
  · rw [ha]; exact hs.dedup.artist_names
  · rw [hb]; exact hs.dedup.album_keys
  · intro t h
    rw [ha, hb]
    exact hs.refs t (ht.subset h)

theorem Call.run_inv (c : Call) (s : Store) (hs : s.Inv) : (c.run s).Inv := by
  cases c with
  | setArtist artist =>
    obtain ⟨id, _, hA, _, hal, htr⟩ := setArtistID_step s artist
    refine ⟨⟨hA.artists_nodup hs.wf.artists_ids, ?_, ?_⟩, ⟨hA.names hs.dedup.artist_names, ?_⟩, ?_⟩
    · show ((setArtistID s artist).1.albums.map (·.id)).Nodup
      rw [hal]; exact hs.wf.albums_ids
    · show ((setArtistID s artist).1.tracks.map (·.id)).Nodup
      rw [htr]; exact hs.wf.tracks_ids
    · show (setArtistID s artist).1.albums.Pairwise _
      rw [hal]; exact hs.dedup.album_keys
    · intro t ht
      change t ∈ (setArtistID s artist).1.tracks at ht
      rw [htr] at ht
      exact @refs_mono s (setArtistID s artist).1 hs.refs hA.artists_subset
        (by rw [hal]; exact List.Subset.refl _) t ht
  | setAlbum album artistID =>
    obtain ⟨id, _, hB, _, har, htr⟩ := setAlbumID_step s album artistID
    refine ⟨⟨?_, hB.albums_nodup hs.wf.albums_ids, ?_⟩, ⟨?_, hB.keys hs.dedup.album_keys⟩, ?_⟩
    · show ((setAlbumID s album artistID).1.artists.map (·.id)).Nodup
      rw [har]; exact hs.wf.artists_ids
    · show ((setAlbumID s album artistID).1.tracks.map (·.id)).Nodup
      rw [htr]; exact hs.wf.tracks_ids
    · show (setAlbumID s album artistID).1.artists.Pairwise _
      rw [har]; exact hs.dedup.artist_names
    · intro t ht
      change t ∈ (setAlbumID s album artistID).1.tracks at ht
      rw [htr] at ht
      exact @refs_mono s (setAlbumID s album artistID).1 hs.refs
        (by rw [har]; exact List.Subset.refl _) hB.albums_subset t ht
  | addMedia env filename =>
    show (AddMedia env s filename).1.Inv
    rcases AddMedia_cases env s filename with e | ⟨file, _, _, _, e⟩
    · rw [e]; exact hs
    · rw [e]
      obtain ⟨_, artistID, albumID, h⟩ := insertMedia_ingested s file filename
      exact ⟨h.wf hs.wf, h.dedup hs.dedup, h.refs hs.refs⟩
  | rmFile getwd filePath =>
    obtain ⟨ha, hb, ht⟩ := removeFile_tracks getwd s filePath
    exact inv_of_fewer_tracks hs ha hb ht
  | rmDirectory dirPath =>
    obtain ⟨ha, hb, ht⟩ := removeDirectory_tracks s dirPath
    exact inv_of_fewer_tracks hs ha hb ht

theorem runCalls_inv (calls : List Call) (s : Store) (hs : s.Inv) : (runCalls calls s).Inv := by
  induction calls generalizing s with
  | nil => exact hs
  | cons c cs ih => exact ih (c.run s) (c.run_inv s hs)

/-! ## C3, C7: invariants of reachable stores -/

/-- C3: in every store reachable from the empty store by any sequence of setArtistID,
setAlbumID and AddMedia calls, no two artist rows have the same name and no two album
rows have the same (name, artist_id) pair. -/
theorem C3_no_duplicate_artists_or_albums (calls : List Call)
    (hcalls : ∀ c ∈ calls, c.isGetOrCreate = true) :
    (runCalls calls Store.empty).artists.Pairwise (fun a b => a.name ≠ b.name) ∧
    (runCalls calls Store.empty).albums.Pairwise
      (fun a b => ¬ (a.name = b.name ∧ a.artist_id = b.artist_id)) :=
  have _ := hcalls
  have h := (runCalls_inv calls Store.empty Store.empty_inv).dedup
  ⟨h.artist_names, h.album_keys⟩

theorem C3_no_duplicate_artists_or_albums_witness :
    (∀ c ∈ sampleGetOrCreateCalls, c.isGetOrCreate = true) ∧
    (runCalls sampleGetOrCreateCalls Store.empty).artists.Pairwise
      (fun a b => a.name ≠ b.name) ∧
    (runCalls sampleGetOrCreateCalls Store.empty).albums.Pairwise
      (fun a b => ¬ (a.name = b.name ∧ a.artist_id = b.artist_id)) :=
  have h : ∀ c ∈ sampleGetOrCreateCalls, c.isGetOrCreate = true := by
    simp [sampleGetOrCreateCalls, Call.isGetOrCreate]
  ⟨h, C3_no_duplicate_artists_or_albums sampleGetOrCreateCalls h⟩

/-- C7: in every store reachable from the empty store by any sequence of AddMedia,
removeFile and removeDirectory calls, the artist_id of every track row is the id of an
existing artist row, its album_id is the id of an existing album row, and every album row
with that id has the artist_id of the track. -/
theorem C7_tracks_reference_existing_rows (calls : List Call)
    (hcalls : ∀ c ∈ calls, c.isFileEvent = true) :
    ∀ t ∈ (runCalls calls Store.empty).tracks,
      (∃ a ∈ (runCalls calls Store.empty).artists, a.id = t.artist_id) ∧
      (∃ al ∈ (runCalls calls Store.empty).albums, al.id = t.album_id) ∧
      (∀ al ∈ (runCalls calls Store.empty).albums,
        al.id = t.album_id → al.artist_id = t.artist_id) := by
  have _ := hcalls
  have h := runCalls_inv calls Store.empty Store.empty_inv
  intro t ht
  obtain ⟨ha, al, hal, hid, hart⟩ := h.refs t ht
  refine ⟨ha, ⟨al, hal, hid⟩, ?_⟩
  intro al2 hal2 hid2
  have e : al2 = al := List.inj_on_of_nodup_map h.wf.albums_ids hal2 hal (hid2.trans hid.symm)
  rw [e]
  exact hart

theorem C7_tracks_reference_existing_rows_witness :
    (∀ c ∈ sampleFileEvents, c.isFileEvent = true) ∧
    ∀ t ∈ (runCalls sampleFileEvents Store.empty).tracks,
      (∃ a ∈ (runCalls sampleFileEvents Store.empty).artists, a.id = t.artist_id) ∧
      (∃ al ∈ (runCalls sampleFileEvents Store.empty).albums, al.id = t.album_id) ∧
      (∀ al ∈ (runCalls sampleFileEvents Store.empty).albums,
        al.id = t.album_id → al.artist_id = t.artist_id) :=
  have h : ∀ c ∈ sampleFileEvents, c.isFileEvent = true := by
    simp [sampleFileEvents, Call.isFileEvent]
  ⟨h, C7_tracks_reference_existing_rows sampleFileEvents h⟩

/-! ## C4: albums of the same name under two artists -/

/-- C4 as stated fails for the empty album name: the store (reachable from the empty
store) holds no album named "" under
artist 2 and GetAlbumID("", 2) returns an error after setAlbumID("", 1), yet the following
setAlbumID("", 2) inserts nothing: it returns the id of the album Unknown that artist 2
already has. -/
theorem C4_empty_name_counterexample :
    runCalls [.setArtist "Artist Testoff", .setArtist "Buggy Bugoff", .setAlbum "" 2]
      Store.empty = storeUnknownAlbum ∧
    (∀ r ∈ storeUnknownAlbum.albums, ¬ (r.name = "" ∧ r.artist_id = 2)) ∧
    GetAlbumID (setAlbumID storeUnknownAlbum "" 1).1 "" 2 = .error .errNoRows ∧
    setAlbumID (setAlbumID storeUnknownAlbum "" 1).1 "" 2 =
      ((setAlbumID storeUnknownAlbum "" 1).1, .ok 1) ∧
    (setAlbumID storeUnknownAlbum "" 1).1.albums = [⟨1, "Unknown", 2⟩, ⟨2, "Unknown", 1⟩] := by
  decide

/-- C4, amended: let n' be the name album n is stored under (n, or Unknown when n is empty).
For two different artist ids a and b and a store holding no album n' under b: after
setAlbumID(n, a), GetAlbumID(n', b) returns an error, and a following setAlbumID(n, b)
inserts one new album row (n', b) whose id differs from the id returned for (n, a). -/
theorem C4_album_names_are_scoped_to_artist (s : Store) (n : String) (a b : Int)
    (hab : a ≠ b)
    (hnone : ∀ r ∈ s.albums, ¬ (r.name = storedName n ∧ r.artist_id = b)) :
    ∃ ida idb,
      (setAlbumID s n a).2 = .ok ida ∧
      GetAlbumID (setAlbumID s n a).1 (storedName n) b = .error .errNoRows ∧
      (setAlbumID (setAlbumID s n a).1 n b).2 = .ok idb ∧
      (setAlbumID (setAlbumID s n a).1 n b).1.albums =
        (setAlbumID s n a).1.albums ++ [⟨idb, storedName n, b⟩] ∧
      idb ≠ ida := by
  obtain ⟨ida, h1, hstep, hrow, _, _⟩ := setAlbumID_step s n a
  generalize setAlbumID s n a = r1 at h1 hstep hrow
  obtain ⟨s1, res1⟩ := r1
  simp only at h1 hstep hrow
  subst h1
  have hnone1 : ∀ r ∈ s1.albums, ¬ (r.name = storedName n ∧ r.artist_id = b) := by
    intro r hr
    rcases hstep with e | ⟨_, e, _⟩
    · rw [e] at hr; exact hnone r hr
    · rw [e, List.mem_append, List.mem_singleton] at hr
      rcases hr with hr | rfl
      · exact hnone r hr
      · exact fun h => hab h.2
  have hget : GetAlbumID s1 (storedName n) b = .error .errNoRows := by
    apply GetAlbumID_none
    rw [List.find?_eq_none]
    intro r hr
    simpa using hnone1 r hr
  have hset : setAlbumID s1 n b =
      (insertAlbum s1 (storedName n) b, .ok (nextRowid (s1.albums.map (·.id)))) := by
    rw [setAlbumID_unfold, hget]
  refine ⟨ida, nextRowid (s1.albums.map (·.id)), rfl, hget, ?_, ?_, ?_⟩
  · rw [hset]
  · rw [hset]; rfl
  · have hmem : ida ∈ s1.albums.map (·.id) := List.mem_map.mpr ⟨_, hrow, rfl⟩
    exact fun h => nextRowid_not_mem _ (h ▸ hmem)

theorem C4_album_names_are_scoped_to_artist_witness :
    ((1 : Int) ≠ 2 ∧
      ∀ r ∈ storeOne.albums, ¬ (r.name = storedName "Return Of The Bugs" ∧ r.artist_id = 2)) ∧
    ∃ ida idb,
      (setAlbumID storeOne "Return Of The Bugs" 1).2 = .ok ida ∧
      GetAlbumID (setAlbumID storeOne "Return Of The Bugs" 1).1
        (storedName "Return Of The Bugs") 2 = .error .errNoRows ∧
      (setAlbumID (setAlbumID storeOne "Return Of The Bugs" 1).1 "Return Of The Bugs" 2).2 =
        .ok idb ∧
      (setAlbumID (setAlbumID storeOne "Return Of The Bugs" 1).1 "Return Of The Bugs" 2).1.albums =
        (setAlbumID storeOne "Return Of The Bugs" 1).1.albums ++
          [⟨idb, storedName "Return Of The Bugs", 2⟩] ∧
      idb ≠ ida :=
  have h1 : (1 : Int) ≠ 2 := by decide
  have h2 : ∀ r ∈ storeOne.albums,
      ¬ (r.name = storedName "Return Of The Bugs" ∧ r.artist_id = 2) := by decide
  ⟨⟨h1, h2⟩, C4_album_names_are_scoped_to_artist storeOne "Return Of The Bugs" 1 2 h1 h2⟩

/-! ## C10: the supported-format filter -/

theorem split_at_first {x : Char} {l : List Char} (h : x ∈ l) :
    ∃ rest, l = l.takeWhile (fun c => c ≠ x) ++ x :: rest := by
  induction l with
  | nil => simp at h
  | cons y ys ih =>
    by_cases hy : y = x
    · subst hy
      exact ⟨ys, by simp⟩
    · rcases List.mem_cons.mp h with rfl | h
      · exact absurd rfl hy
      · obtain ⟨rest, hr⟩ := ih h
        refine ⟨rest, ?_⟩
        rw [List.takeWhile_cons, if_pos (by simpa using hy), List.cons_append, ← hr]

/-- A list ends, read backwards, in the body b and a dot exactly when the backwards last
path element has a dot and holds b before its first dot. -/
theorem dotted_tail_iff (r b : List Char) (hdot : '.' ∉ b) (hslash : '/' ∉ b) :
    b ++ ['.'] <+: r ↔
      '.' ∈ r.takeWhile (fun c => c ≠ '/') ∧
        (r.takeWhile (fun c => c ≠ '/')).takeWhile (fun c => c ≠ '.') = b := by
  have hb1 : ∀ c ∈ b, (decide (c ≠ '/')) = true := fun c hc => by
    simpa using fun h : c = '/' => hslash (h ▸ hc)
  have hb2 : ∀ c ∈ b, (decide (c ≠ '.')) = true := fun c hc => by
    simpa using fun h : c = '.' => hdot (h ▸ hc)
  constructor
  · rintro ⟨rest, rfl⟩
    have e : List.takeWhile (fun c => decide (c ≠ '/')) (b ++ ['.'] ++ rest) =
        b ++ '.' :: List.takeWhile (fun c => decide (c ≠ '/')) rest := by
      rw [List.append_assoc, List.takeWhile_append_of_pos hb1]
      simp [List.takeWhile_cons]
    rw [e]
    refine ⟨by simp, ?_⟩
    rw [List.takeWhile_append_of_pos hb2]
    simp [List.takeWhile_cons]
  · rintro ⟨hmem, hb⟩
    obtain ⟨rest, hr⟩ := split_at_first hmem
    rw [hb] at hr
    have h1 : b ++ ['.'] <+: r.takeWhile (fun c => c ≠ '/') := ⟨rest, by rw [hr]; simp⟩
    exact h1.trans (List.takeWhile_prefix _)

theorem hasSuffix_iff_extension (path : String) (body : List Char)
    (hdot : '.' ∉ body) (hslash : '/' ∉ body) :
    hasSuffix path (String.mk ('.' :: body)) = true ↔
      fileExtension path = String.mk ('.' :: body) := by
  have hkey := dotted_tail_iff path.toList.reverse body.reverse
    (by simpa using hdot) (by simpa using hslash)
  have h1 : hasSuffix path (String.mk ('.' :: body)) = true ↔
      body.reverse ++ ['.'] <+: path.toList.reverse := by
    unfold hasSuffix
    rw [List.isSuffixOf_iff_suffix, ← List.reverse_prefix]
    simp [String.toList]
  rw [h1, hkey]
  unfold fileExtension lastPathElement
  simp only [List.reverse_reverse, List.mem_reverse]
  constructor
  · rintro ⟨hmem, hb⟩
    rw [if_pos hmem, hb, List.reverse_reverse]
  · intro h
    by_cases hmem : '.' ∈ List.takeWhile (fun c => decide (c ≠ '/')) path.toList.reverse
    · rw [if_pos hmem] at h
      refine ⟨hmem, ?_⟩
      have h2 := congrArg String.data h
      simp only [List.cons.injEq, true_and] at h2
      rw [← h2, List.reverse_reverse]
    · rw [if_neg hmem] at h
      have h2 := congrArg String.data h
      simp at h2

/-- C10: isSupportedFormat(path) is true if and only if the extension of the file name
(the text from the last '.' of the last path element to the end) is exactly one of .mp3,
.ogg, .oga, .wav, .fla, .flac, .m4a; a path with no extension such as "not_related"
gives false. -/
theorem C10_isSupportedFormat_iff_extension (path : String) :
    (isSupportedFormat path = true ↔
      fileExtension path ∈ [".mp3", ".ogg", ".oga", ".wav", ".fla", ".flac", ".m4a"]) ∧
    isSupportedFormat "not_related" = false := by
  refine ⟨?_, by decide⟩
  have h3 := hasSuffix_iff_extension path ['m', 'p', '3'] (by decide) (by decide)
  have h4 := hasSuffix_iff_extension path ['o', 'g', 'g'] (by decide) (by decide)
  have h5 := hasSuffix_iff_extension path ['o', 'g', 'a'] (by decide) (by decide)
  have h6 := hasSuffix_iff_extension path ['w', 'a', 'v'] (by decide) (by decide)
  have h7 := hasSuffix_iff_extension path ['f', 'l', 'a'] (by decide) (by decide)
  have h8 := hasSuffix_iff_extension path ['f', 'l', 'a', 'c'] (by decide) (by decide)
  have h9 := hasSuffix_iff_extension path ['m', '4', 'a'] (by decide) (by decide)
  have e3 : String.mk ['.', 'm', 'p', '3'] = ".mp3" := by decide
  have e4 : String.mk ['.', 'o', 'g', 'g'] = ".ogg" := by decide
  have e5 : String.mk ['.', 'o', 'g', 'a'] = ".oga" := by decide
  have e6 : String.mk ['.', 'w', 'a', 'v'] = ".wav" := by decide
  have e7 : String.mk ['.', 'f', 'l', 'a'] = ".fla" := by decide
  have e8 : String.mk ['.', 'f', 'l', 'a', 'c'] = ".flac" := by decide
  have e9 : String.mk ['.', 'm', '4', 'a'] = ".m4a" := by decide
  rw [e3] at h3
  rw [e4] at h4
  rw [e5] at h5
  rw [e6] at h6
  rw [e7] at h7
  rw [e8] at h8
  rw [e9] at h9
  unfold isSupportedFormat
  simp only [List.any_cons, List.any_nil, Bool.or_false, Bool.or_eq_true, h3, h4, h5, h6, h7,
    h8, h9, List.mem_cons, List.mem_singleton, List.not_mem_nil, or_false]

/-! ## Search, GetAlbumFiles and GetFilePath on well-formed stores -/

theorem joinedRows_eq (s : Store) : joinedRows s = s.tracks.flatMap (rowsOf s) := rfl

theorem filter_key_eq_singleton {α : Type} (f : α → Int) :
    ∀ (l : List α) (x : α), (l.map f).Nodup → x ∈ l →
      l.filter (fun y => decide (f y = f x)) = [x] := by
  intro l
  induction l with
  | nil => intro x _ hx; simp at hx
  | cons y ys ih =>
    intro x hnd hx
    rw [List.map_cons, List.nodup_cons] at hnd
    rcases List.mem_cons.mp hx with rfl | hx
    · have hrest : ys.filter (fun y => decide (f y = f x)) = [] := by
        rw [List.filter_eq_nil_iff]
        intro a ha hfa
        exact hnd.1 (List.mem_map.mpr ⟨a, ha, by simpa using hfa⟩)
      simp [List.filter_cons, hrest]
    · have hne : f y ≠ f x := fun h => hnd.1 (List.mem_map.mpr ⟨x, hx, h.symm⟩)
      rw [List.filter_cons, if_neg (by simpa using hne)]
      exact ih x hnd.2 hx

theorem rowsOf_track (s : Store) (t : TrackRow) : ∀ r ∈ rowsOf s t, r.t = t := by
  intro r hr
  simp only [rowsOf, List.mem_flatMap, List.mem_map] at hr
  obtain ⟨_, _, _, _, rfl⟩ := hr
  rfl

/-- With unique ids a track that references an existing album and artist contributes
exactly one joined row, carrying those two rows. -/
theorem rowsOf_eq (s : Store) (hs : s.WF) (t : TrackRow) (al : AlbumRow) (ar : ArtistRow)
    (hal : al ∈ s.albums) (hali : al.id = t.album_id)
    (har : ar ∈ s.artists) (hari : ar.id = t.artist_id) :
    rowsOf s t = [⟨t, some al, some ar⟩] := by
  have h1 := filter_key_eq_singleton (fun r : AlbumRow => r.id) s.albums al hs.albums_ids hal
  have h2 := filter_key_eq_singleton (fun r : ArtistRow => r.id) s.artists ar hs.artists_ids har
  simp only [hali, hari] at h1 h2
  simp [rowsOf, h1, h2, leftJoin]

theorem scanRow_ID (r : JoinedRow) : (scanRow r).ID = r.t.id := by
  unfold scanRow
  split <;> rfl

theorem patternCompare_any (v : List Char) : patternCompare ['%', '%'] v = true := by
  simp only [patternCompare, if_true, List.any_eq_true]
  exact ⟨v, (List.mem_tails _ _).mpr (List.suffix_refl _), [],
    (List.mem_tails _ _).mpr List.nil_suffix, rfl⟩

theorem likeMatch_any (v : List Char) : likeMatch ['%', '%'] v = true := by
  unfold likeMatch
  have h : likeRead ['%', '%'] = ['%', '%'] := by decide
  rw [h]
  exact patternCompare_any _

/-- Search is the query of its text on the store: no result when the pattern %term% is
over the length limit, and otherwise the joined rows that pass one of the three LIKE
conditions, ordered and scanned. -/
theorem Search_eq (s : Store) (term : String) :
    Search s term =
      if likeTooLong ("%" ++ term ++ "%") = true then []
      else
        (orderRows ((joinedRows s).filter fun r =>
          sqlLike ("%" ++ term ++ "%") (some r.t.name) ||
            sqlLike ("%" ++ term ++ "%") (r.al.map (·.name)) ||
            sqlLike ("%" ++ term ++ "%") (r.ar.map (·.name)))).map scanRow := by
  unfold Search dbQuery
  simp only [if_true, Bool.or_self]
  split <;> rfl

/-- Search with the empty term keeps every joined row. -/
theorem Search_empty_eq (s : Store) :
    Search s "" = (orderRows (joinedRows s)).map scanRow := by
  rw [Search_eq]
  have hshort : likeTooLong ("%" ++ "" ++ "%") = false := by decide
  rw [hshort, if_neg (by decide)]
  have hp : ("%" ++ "" ++ "%" : String).toList = ['%', '%'] := by decide
  have hall : (joinedRows s).filter (fun r =>
      sqlLike ("%" ++ "" ++ "%") (some r.t.name) ||
        sqlLike ("%" ++ "" ++ "%") (r.al.map (·.name)) ||
        sqlLike ("%" ++ "" ++ "%") (r.ar.map (·.name))) = joinedRows s := by
    rw [List.filter_eq_self]
    intro r _
    have : sqlLike ("%" ++ "" ++ "%") (some r.t.name) = true := by
      simp only [sqlLike, hp]
      exact likeMatch_any _
    simp only [this, Bool.true_or]
  simp only [hall]

theorem orderRows_perm (rows : List JoinedRow) : (orderRows rows).Perm rows :=
  List.perm_insertionSort _ _

/-- The results that a query reports for one track id come from the joined rows of that
track id, whatever the order of the result. -/
theorem report_filter_ID (rows : List JoinedRow) (keep : JoinedRow → Bool) (id : Int)
    (row : JoinedRow) (hrow : (rows.filter (fun r => decide (r.t.id = id))) = [row])
    (hkeep : keep row = true) :
    ((orderRows (rows.filter keep)).map scanRow).filter (fun res => decide (res.ID = id)) =
      [scanRow row] := by
  rw [← List.perm_singleton]
  have h1 : (((orderRows (rows.filter keep)).map scanRow).filter
      (fun res => decide (res.ID = id))).Perm
      (((rows.filter keep).map scanRow).filter (fun res => decide (res.ID = id))) :=
    ((orderRows_perm _).map _).filter _
  refine h1.trans ?_
  have h2 : ((rows.filter keep).map scanRow).filter (fun res => decide (res.ID = id)) =
      ((rows.filter (fun r => decide (r.t.id = id))).filter keep).map scanRow := by
    rw [List.filter_map, List.filter_filter, List.filter_filter]
    congr 1
    apply List.filter_congr
    intro r _
    simp only [Function.comp, scanRow_ID, Bool.and_comm]
  rw [h2, hrow]
  simp [hkeep]

theorem GetFilePath_of_mem (s : Store) (hs : (s.tracks.map (·.id)).Nodup) (t : TrackRow)
    (ht : t ∈ s.tracks) : GetFilePath s t.id = t.fs_path := by
  unfold GetFilePath
  cases h : s.tracks.find? (fun x => x.id = t.id) with
  | none =>
    have := List.find?_eq_none.mp h t ht
    simp at this
  | some x =>
    have hx := List.mem_of_find?_eq_some h
    have hid : x.id = t.id := by simpa using List.find?_some h
    rw [List.inj_on_of_nodup_map hs hx ht hid]

/-- A file whose stored (title, artist name, album name) no track carries gets a new track
row, appended with a fresh id. -/
theorem Ingested.new_track {s s' : Store} {file : MediaFile} {p : String}
    {artistID albumID : Int} (h : Ingested s file p s' artistID albumID)
    (hwf : s.WF) (hrefs : s.Refs)
    (hkey : ∀ t ∈ s.tracks, ∀ a ∈ s.artists, ∀ al ∈ s.albums,
      a.id = t.artist_id → al.id = t.album_id →
      ¬ (t.name = storedTitle file.title p ∧ a.name = storedName file.artist ∧
        al.name = storedName file.album)) :
    s'.tracks = s.tracks ++ [⟨nextRowid (s.tracks.map (·.id)), storedTitle file.title p,
      albumID, artistID, p, file.track⟩] := by
  rcases h.tracks with ⟨_, t, ht, hname, hart, halb⟩ | ⟨e, _⟩
  · exfalso
    have hwf' := h.wf hwf
    obtain ⟨⟨a, ha, hai⟩, al, hal, hali, _⟩ := hrefs t ht
    have ea : a = ⟨artistID, storedName file.artist⟩ :=
      List.inj_on_of_nodup_map hwf'.artists_ids (h.artists.artists_subset ha) h.artist_row
        (hai.trans hart)
    have eal : al = ⟨albumID, storedName file.album, artistID⟩ :=
      List.inj_on_of_nodup_map hwf'.albums_ids (h.albums.albums_subset hal) h.album_row
        (hali.trans halb)
    exact hkey t ht a ha al hal hai hali ⟨hname, by rw [ea], by rw [eal]⟩
  · exact e

theorem AddMedia_new_file (env : Env) (s : Store) (p : String) (file : MediaFile)
    (hnew : ∀ t ∈ s.tracks, t.fs_path ≠ p)
    (hstat : env.stat p = none) (hread : env.taglibRead p = .ok file) :
    AddMedia env s p = insertMediaIntoDatabase s file p := by
  have hex : ¬ (MediaExistsInLibrary s p = true) := by
    rw [mediaExists_iff]
    rintro ⟨t, ht, hp⟩
    exact hnew t ht hp
  unfold AddMedia
  rw [if_neg hex]
  simp only [hstat, hread]

/-- The joined rows of a store whose last track row is new: those carrying the id of the
new track are the one row of that track with its album and artist. -/
theorem joinedRows_new_track (s' : Store) (hwf : s'.WF) (old : List TrackRow) (t : TrackRow)
    (al : AlbumRow) (ar : ArtistRow) (htr : s'.tracks = old ++ [t])
    (hal : al ∈ s'.albums) (hali : al.id = t.album_id)
    (har : ar ∈ s'.artists) (hari : ar.id = t.artist_id) :
    (joinedRows s').filter (fun r => decide (r.t.id = t.id)) = [⟨t, some al, some ar⟩] := by
  have hnd := hwf.tracks_ids
  rw [htr, List.map_append, List.nodup_append] at hnd
  have hold : (old.flatMap (rowsOf s')).filter (fun r => decide (r.t.id = t.id)) = [] := by
    rw [List.filter_eq_nil_iff]
    intro r hr hid
    obtain ⟨t0, ht0, hr0⟩ := List.mem_flatMap.mp hr
    have e := rowsOf_track s' t0 r hr0
    have hid2 : t0.id = t.id := by rw [← e]; simpa using hid
    exact hnd.2.2 (List.mem_map.mpr ⟨t0, ht0, hid2⟩) (by simp)
  rw [joinedRows_eq, htr, List.flatMap_append, List.filter_append, hold,
    List.flatMap_singleton, rowsOf_eq s' hwf t al ar hal hali har hari]
  simp

/-! ## C8: a new file is indexed with its tags -/

/-- C8: let s be a store with unique ids whose tracks reference existing rows, p a path
not yet indexed, and (artist, album, title, number) the tags read from p, such that no
track of s carries the same stored (title, artist name, album name).  Then AddMedia(p)
returns nil, there is exactly one track row with fs_path p, Search (of the empty term)
and GetAlbumFiles (of its album) report it once, with Artist = artist (or Unknown if empty), Album = album (or Unknown if empty),
Title = title (or the base name of p if empty) and TrackNumber = number as the tag gave
it, and GetFilePath of its ID returns p. -/
theorem C8_new_file_is_indexed_with_its_tags (env : Env) (s : Store) (p : String)
    (file : MediaFile) (hwf : s.WF) (hrefs : s.Refs)
    (hnew : ∀ t ∈ s.tracks, t.fs_path ≠ p)
    (hstat : env.stat p = none) (hread : env.taglibRead p = .ok file)
    (hkey : ∀ t ∈ s.tracks, ∀ a ∈ s.artists, ∀ al ∈ s.albums,
      a.id = t.artist_id → al.id = t.album_id →
      ¬ (t.name = storedTitle file.title p ∧ a.name = storedName file.artist ∧
        al.name = storedName file.album)) :
    (AddMedia env s p).2 = none ∧
    ∃ id artistID albumID,
      (AddMedia env s p).1.tracks.filter (fun t => t.fs_path = p) =
        [⟨id, storedTitle file.title p, albumID, artistID, p, file.track⟩] ∧
      (Search (AddMedia env s p).1 "").filter (fun r => r.ID = id) =
        [⟨id, storedName file.artist, albumID, storedName file.album,
          storedTitle file.title p, file.track⟩] ∧
      (GetAlbumFiles (AddMedia env s p).1 albumID).filter (fun r => r.ID = id) =
        [⟨id, storedName file.artist, albumID, storedName file.album,
          storedTitle file.title p, file.track⟩] ∧
      GetFilePath (AddMedia env s p).1 id = p := by
  rw [AddMedia_new_file env s p file hnew hstat hread]
  obtain ⟨hnil, artistID, albumID, h⟩ := insertMedia_ingested s file p
  refine ⟨hnil, nextRowid (s.tracks.map (·.id)), artistID, albumID, ?_⟩
  generalize (insertMediaIntoDatabase s file p).1 = s' at h
  have hwf' := h.wf hwf
  have htr := h.new_track hwf hrefs hkey
  have hrows := joinedRows_new_track s' hwf' s.tracks _ _ _ htr h.album_row rfl h.artist_row rfl
  refine ⟨?_, ?_, ?_, ?_⟩
  · have hold : s.tracks.filter (fun t => decide (t.fs_path = p)) = [] := by
      rw [List.filter_eq_nil_iff]
      intro t ht hp
      exact hnew t ht (by simpa using hp)
    rw [htr, List.filter_append, hold]
    simp
  · rw [Search_empty_eq]
    have := report_filter_ID (joinedRows s') (fun _ => true) _ _ hrows rfl
    simpa [scanRow] using this
  · have := report_filter_ID (joinedRows s') (fun r => decide (r.t.album_id = albumID)) _ _
      hrows (by simp)
    simpa [scanRow, GetAlbumFiles] using this
  · have hmem : (⟨nextRowid (s.tracks.map (·.id)), storedTitle file.title p, albumID,
        artistID, p, file.track⟩ : TrackRow) ∈ s'.tracks := by
      rw [htr]; simp
    exact GetFilePath_of_mem s' hwf'.tracks_ids _ hmem

theorem C8_new_file_is_indexed_with_its_tags_witness :
    (AddMedia envTagged storeOne "/lib/test_file_two.mp3").2 = none ∧
    ∃ id artistID albumID,
      (AddMedia envTagged storeOne "/lib/test_file_two.mp3").1.tracks.filter
          (fun t => t.fs_path = "/lib/test_file_two.mp3") =
        [⟨id, storedTitle "Another One" "/lib/test_file_two.mp3", albumID, artistID,
          "/lib/test_file_two.mp3", 2⟩] ∧
      (Search (AddMedia envTagged storeOne "/lib/test_file_two.mp3").1 "").filter
          (fun r => r.ID = id) =
        [⟨id, storedName "Artist Testoff", albumID, storedName "Album Of Tests",
          storedTitle "Another One" "/lib/test_file_two.mp3", 2⟩] ∧
      (GetAlbumFiles (AddMedia envTagged storeOne "/lib/test_file_two.mp3").1 albumID).filter
          (fun r => r.ID = id) =
        [⟨id, storedName "Artist Testoff", albumID, storedName "Album Of Tests",
          storedTitle "Another One" "/lib/test_file_two.mp3", 2⟩] ∧
      GetFilePath (AddMedia envTagged storeOne "/lib/test_file_two.mp3").1 id =
        "/lib/test_file_two.mp3" :=
  C8_new_file_is_indexed_with_its_tags envTagged storeOne "/lib/test_file_two.mp3"
    ⟨"Artist Testoff", "Album Of Tests", "Another One", 2⟩
    ⟨by decide, by decide, by decide⟩ (by decide) (by decide) rfl rfl (by decide)

/-! ## C2: Search("") after ingesting a list of files -/

theorem Indexed.step {tags : String → MediaFile} {s : Store} {done : List String}
    (h : Indexed tags s done) (env : Env) (p : String)
    (hstat : env.stat p = none) (hread : env.taglibRead p = .ok (tags p))
    (hk : storedKey (tags p) p ∉ done.map (fun q => storedKey (tags q) q)) :
    Indexed tags (AddMedia env s p).1 (done ++ [p]) := by
  have hpath : ∀ t ∈ s.tracks, t.fs_path ∈ done := fun t ht => by
    rw [← h.paths]
    exact List.mem_map.mpr ⟨t, ht, rfl⟩
  have hnew : ∀ t ∈ s.tracks, t.fs_path ≠ p := fun t ht e =>
    hk (List.mem_map.mpr ⟨t.fs_path, hpath t ht, by rw [e]⟩)
  have hkey : ∀ t ∈ s.tracks, ∀ a ∈ s.artists, ∀ al ∈ s.albums,
      a.id = t.artist_id → al.id = t.album_id →
      ¬ (t.name = storedTitle (tags p).title p ∧ a.name = storedName (tags p).artist ∧
        al.name = storedName (tags p).album) := by
    intro t ht a ha al hal hai hali ⟨e1, e2, e3⟩
    apply hk
    refine List.mem_map.mpr ⟨t.fs_path, hpath t ht, ?_⟩
    rw [← h.keys t ht a ha al hal hai hali, e1, e2, e3]
    rfl
  rw [AddMedia_new_file env s p (tags p) hnew hstat hread]
  obtain ⟨_, artistID, albumID, hi⟩ := insertMedia_ingested s (tags p) p
  generalize (insertMediaIntoDatabase s (tags p) p).1 = s' at hi
  have hwf' := hi.wf h.wf
  have htr := hi.new_track h.wf h.refs hkey
  refine ⟨hwf', hi.refs h.refs, ?_, ?_⟩
  · rw [htr, List.map_append, h.paths]
    rfl
  · intro t ht a ha al hal hai hali
    rw [htr, List.mem_append, List.mem_singleton] at ht
    rcases ht with ht | rfl
    · obtain ⟨⟨a0, ha0, hai0⟩, al0, hal0, hali0, _⟩ := h.refs t ht
      have ea : a = a0 := List.inj_on_of_nodup_map hwf'.artists_ids ha
        (hi.artists.artists_subset ha0) (hai.trans hai0.symm)
      have eal : al = al0 := List.inj_on_of_nodup_map hwf'.albums_ids hal
        (hi.albums.albums_subset hal0) (hali.trans hali0.symm)
      rw [ea, eal]
      exact h.keys t ht a0 ha0 al0 hal0 hai0 hali0
    · have ea : a = ⟨artistID, storedName (tags p).artist⟩ :=
        List.inj_on_of_nodup_map hwf'.artists_ids ha hi.artist_row hai
      have eal : al = ⟨albumID, storedName (tags p).album, artistID⟩ :=
        List.inj_on_of_nodup_map hwf'.albums_ids hal hi.album_row hali
      rw [ea, eal]
      rfl

theorem addAll_indexed (env : Env) (tags : String → MediaFile) :
    ∀ (paths done : List String) (s : Store), Indexed tags s done →
      (∀ p ∈ paths, env.stat p = none ∧ env.taglibRead p = .ok (tags p)) →
      ((done ++ paths).map (fun q => storedKey (tags q) q)).Nodup →
      Indexed tags (addAll env paths s) (done ++ paths) := by
  intro paths
  induction paths with
  | nil =>
    intro done s h _ _
    simpa [addAll] using h
  | cons p ps ih =>
    intro done s h hfiles hnd
    have hp := hfiles p (List.mem_cons_self _ _)
    have hnd2 : (((done ++ [p]) ++ ps).map (fun q => storedKey (tags q) q)).Nodup := by
      simpa using hnd
    have hk : storedKey (tags p) p ∉ done.map (fun q => storedKey (tags q) q) := by
      intro hmem
      rw [List.map_append, List.nodup_append] at hnd
      exact hnd.2.2 hmem (by simp)
    have hstep := h.step env p hp.1 hp.2 hk
    have := ih (done ++ [p]) _ hstep (fun q hq => hfiles q (List.mem_cons_of_mem _ hq)) hnd2
    simpa [addAll] using this

theorem Search_empty_paths (s : Store) (hwf : s.WF) (hrefs : s.Refs) :
    ((Search s "").map (fun r => GetFilePath s r.ID)).Perm (s.tracks.map (·.fs_path)) := by
  rw [Search_empty_eq, List.map_map]
  refine ((orderRows_perm _).map _).trans ?_
  have hsub : ∀ l : List TrackRow, l ⊆ s.tracks →
      (l.flatMap (rowsOf s)).map ((fun r => GetFilePath s r.ID) ∘ scanRow) =
        l.map (·.fs_path) := by
    intro l
    induction l with
    | nil => intro _; rfl
    | cons t ts ih =>
      intro hl
      have ht : t ∈ s.tracks := hl (List.mem_cons_self _ _)
      obtain ⟨⟨a, ha, hai⟩, al, hal, hali, _⟩ := hrefs t ht
      rw [List.flatMap_cons, List.map_append, ih (fun x hx => hl (List.mem_cons_of_mem _ hx)),
        rowsOf_eq s hwf t al a hal hali ha hai]
      simp [scanRow, GetFilePath_of_mem s hwf.tracks_ids t ht]
  rw [joinedRows_eq, hsub s.tracks (List.Subset.refl _)]

/-- C2 as stated fails: two distinct existing, parseable, supported files without tags
and with the same base name are stored as one track, so Search("") returns one result
for the two paths. -/
theorem C2_same_key_counterexample :
    ["/a/x.mp3", "/b/x.mp3"].Nodup ∧
    (∀ p ∈ ["/a/x.mp3", "/b/x.mp3"], isSupportedFormat p = true) ∧
    (∀ p : String, envUntagged.stat p = none ∧ ∃ f, envUntagged.taglibRead p = .ok f) ∧
    Search (addAll envUntagged ["/a/x.mp3", "/b/x.mp3"] Store.empty) "" =
      [⟨1, "Unknown", 1, "Unknown", "x.mp3", 0⟩] ∧
    GetFilePath (addAll envUntagged ["/a/x.mp3", "/b/x.mp3"] Store.empty) 1 = "/a/x.mp3" ∧
    (Search (addAll envUntagged ["/a/x.mp3", "/b/x.mp3"] Store.empty) "").length ≠
      ["/a/x.mp3", "/b/x.mp3"].length :=
  ⟨by decide, by decide, fun _ => ⟨rfl, _, rfl⟩, by rw [Search_empty_eq]; decide, by decide,
    by rw [Search_empty_eq]; decide⟩

/-- C2, amended: for every list of paths of existing, parseable files whose stored
(title, artist, album) triples are pairwise distinct (title or the base name of the path
if empty, artist and album or Unknown if empty), after AddMedia has been applied to each
of them starting from an empty store, Search("") returns exactly one result per path: the
paths that GetFilePath gives for the result IDs are the given paths, each once. -/
theorem C2_search_lists_each_file_once (env : Env) (tags : String → MediaFile)
    (paths : List String)
    (hfiles : ∀ p ∈ paths, env.stat p = none ∧ env.taglibRead p = .ok (tags p))
    (hkeys : (paths.map (fun p => storedKey (tags p) p)).Nodup) :
    (Search (addAll env paths Store.empty) "").length = paths.length ∧
    ((Search (addAll env paths Store.empty) "").map
      (fun r => GetFilePath (addAll env paths Store.empty) r.ID)).Perm paths := by
  have h0 : Indexed tags Store.empty [] :=
    ⟨Store.empty_inv.wf, Store.empty_inv.refs, rfl, fun _ h => by simp [Store.empty] at h⟩
  have h := addAll_indexed env tags paths [] Store.empty h0 hfiles (by simpa using hkeys)
  rw [List.nil_append] at h
  have hperm := Search_empty_paths _ h.wf h.refs
  rw [h.paths] at hperm
  refine ⟨?_, hperm⟩
  have := hperm.length_eq
  simpa using this

theorem C2_search_lists_each_file_once_witness :
    (Search (addAll envSample ["/lib/test_file_one.mp3", "/lib/test_file_two.mp3"]
      Store.empty) "").length = 2 ∧
    ((Search (addAll envSample ["/lib/test_file_one.mp3", "/lib/test_file_two.mp3"]
      Store.empty) "").map
      (fun r => GetFilePath (addAll envSample
        ["/lib/test_file_one.mp3", "/lib/test_file_two.mp3"] Store.empty) r.ID)).Perm
      ["/lib/test_file_one.mp3", "/lib/test_file_two.mp3"] :=
  C2_search_lists_each_file_once envSample sampleTags
    ["/lib/test_file_one.mp3", "/lib/test_file_two.mp3"]
    (fun _ _ => ⟨rfl, rfl⟩) (by decide)

/-! ## C14, C16: what the two remove functions leave alone -/

/-- C14: for every store and every absolute, cleaned path p (p starts with '/' and
filepath.Clean leaves it as it is), after removeFile(p) no track row has fs_path = p, and
the track rows whose fs_path differs from p are all still there, unchanged and in their
order: the tracks table is the old one without the rows of path p. -/
theorem C14_removeFile_removes_exactly_the_path (getwd : Except LibError String) (s : Store)
    (p : String) (habs : p.toList.head? = some '/') (hclean : filepathClean p = p) :
    (∀ t ∈ (removeFile getwd s p).tracks, t.fs_path ≠ p) ∧
    (∀ t ∈ s.tracks, t.fs_path ≠ p → t ∈ (removeFile getwd s p).tracks) ∧
    (removeFile getwd s p).tracks = s.tracks.filter (fun t => t.fs_path ≠ p) := by
  have e : removeFile getwd s p =
      { s with tracks := s.tracks.filter fun t => ¬ (t.fs_path = p) } := by
    unfold removeFile filepathAbs
    rw [if_pos habs, hclean]
  rw [e]
  refine ⟨?_, ?_, rfl⟩
  · intro t ht
    simpa using (List.mem_filter.mp ht).2
  · intro t ht hne
    exact List.mem_filter.mpr ⟨ht, by simpa using hne⟩

theorem C14_removeFile_removes_exactly_the_path_witness :
    (removeFile (.error .getwdFailed) storeSiblings
        "/lib/to_be_moved/test_file_added.mp3").tracks =
      [⟨2, "Other Song", 1, 1, "/lib/to-be-moved/other.mp3", 2⟩] ∧
    (∀ t ∈ (removeFile (.error .getwdFailed) storeSiblings
        "/lib/to_be_moved/test_file_added.mp3").tracks,
      t.fs_path ≠ "/lib/to_be_moved/test_file_added.mp3") ∧
    (∀ t ∈ storeSiblings.tracks, t.fs_path ≠ "/lib/to_be_moved/test_file_added.mp3" →
      t ∈ (removeFile (.error .getwdFailed) storeSiblings
        "/lib/to_be_moved/test_file_added.mp3").tracks) ∧
    (removeFile (.error .getwdFailed) storeSiblings
        "/lib/to_be_moved/test_file_added.mp3").tracks =
      storeSiblings.tracks.filter
        (fun t => t.fs_path ≠ "/lib/to_be_moved/test_file_added.mp3") :=
  ⟨by decide,
    C14_removeFile_removes_exactly_the_path (.error .getwdFailed) storeSiblings
      "/lib/to_be_moved/test_file_added.mp3" (by decide) (by decide)⟩

/-- C16: removeFile and removeDirectory leave the artists and albums tables unchanged,
whatever the path and whatever tracks they delete: artist and album rows stay in the
store even when no track references them any more. -/
theorem C16_remove_keeps_artists_and_albums (getwd : Except LibError String) (s : Store)
    (path : String) :
    (removeFile getwd s path).artists = s.artists ∧
    (removeFile getwd s path).albums = s.albums ∧
    (removeDirectory s path).artists = s.artists ∧
    (removeDirectory s path).albums = s.albums ∧
    (removeFile (.ok "/") storeOne "/lib/folder_one/third_file.mp3").tracks = [] ∧
    (removeFile (.ok "/") storeOne "/lib/folder_one/third_file.mp3").artists =
      [⟨1, "Buggy Bugoff"⟩] ∧
    (removeDirectory storeOne "/lib/folder_one").tracks = [] ∧
    (removeDirectory storeOne "/lib/folder_one").albums = [⟨1, "Return Of The Bugs", 1⟩] :=
  ⟨(removeFile_tracks getwd s path).1, (removeFile_tracks getwd s path).2.1,
    (removeDirectory_tracks s path).1, (removeDirectory_tracks s path).2.1,
    by decide, by decide, by decide, by decide⟩

/-! ## C20: setTrackID is get-or-create -/

/-- C20: setTrackID is get-or-create on (title, artistID, albumID), an empty title being
first replaced by the base name of fsPath.  If a track row with that key exists it returns
the id of such a row and leaves the store as it is, whatever fsPath and number are;
otherwise it appends exactly one track row with the given title, album, artist, path and
number and returns the id of the new row. -/
theorem C20_setTrackID_is_get_or_create (s : Store) (title fsPath : String)
    (number artistID albumID : Int) :
    ((∃ r ∈ s.tracks, r.name = storedTitle title fsPath ∧ r.artist_id = artistID ∧
        r.album_id = albumID) →
      ∃ r ∈ s.tracks, (r.name = storedTitle title fsPath ∧ r.artist_id = artistID ∧
        r.album_id = albumID) ∧
        setTrackID s title fsPath number artistID albumID = (s, .ok r.id)) ∧
    ((∀ r ∈ s.tracks, ¬ (r.name = storedTitle title fsPath ∧ r.artist_id = artistID ∧
        r.album_id = albumID)) →
      ∃ id, id ∉ s.tracks.map (·.id) ∧
        (setTrackID s title fsPath number artistID albumID).2 = .ok id ∧
        (setTrackID s title fsPath number artistID albumID).1.tracks =
          s.tracks ++ [⟨id, storedTitle title fsPath, albumID, artistID, fsPath, number⟩] ∧
        (setTrackID s title fsPath number artistID albumID).1.artists = s.artists ∧
        (setTrackID s title fsPath number artistID albumID).1.albums = s.albums) ∧
    storedTitle "" fsPath = filepathBase fsPath ∧
    (title ≠ "" → storedTitle title fsPath = title) := by
  refine ⟨?_, ?_, rfl, ?_⟩
  · rintro ⟨r0, hr0, hk0⟩
    rcases setTrackID_cases s title fsPath number artistID albumID with
      ⟨r, hr, hk, e⟩ | ⟨hno, _⟩
    · exact ⟨r, hr, hk, e⟩
    · exact absurd hk0 (hno r0 hr0)
  · intro hno
    rcases setTrackID_cases s title fsPath number artistID albumID with
      ⟨r, hr, hk, _⟩ | ⟨_, e⟩
    · exact absurd hk (hno r hr)
    · rw [e]
      exact ⟨_, nextRowid_not_mem _, rfl, rfl, rfl, rfl⟩
  · intro hne
    have hlen : ¬ title.length < 1 := by
      intro h
      apply hne
      have h0 : title.length = 0 := by omega
      exact String.ext (List.length_eq_zero.mp h0)
    simp only [storedTitle, if_neg hlen]

theorem C20_setTrackID_is_get_or_create_witness :
    setTrackID storeOne "Payback" "/elsewhere/copy.mp3" 7 1 1 = (storeOne, .ok 1) ∧
    (setTrackID storeOne "" "/lib/untitled.mp3" 3 1 1).2 = .ok 2 ∧
    (setTrackID storeOne "" "/lib/untitled.mp3" 3 1 1).1.tracks =
      storeOne.tracks ++ [⟨2, "untitled.mp3", 1, 1, "/lib/untitled.mp3", 3⟩] :=
  have h := C20_setTrackID_is_get_or_create storeOne "Payback" "/elsewhere/copy.mp3" 7 1 1
  have hex : ∃ r ∈ storeOne.tracks, r.name = storedTitle "Payback" "/elsewhere/copy.mp3" ∧
      r.artist_id = 1 ∧ r.album_id = 1 := by decide
  have _ := h.1 hex
  ⟨by decide, by decide, by decide⟩

/-! ## The LIKE pattern of Search -/

theorem albumNameLT_trichotomy (x y : Option String) :
    albumNameLT x y = true ∨ x = y ∨ albumNameLT y x = true := by
  cases x with
  | none => cases y <;> simp [albumNameLT]
  | some a =>
    cases y with
    | none => simp [albumNameLT]
    | some b =>
      rcases lt_trichotomy a.toList b.toList with h | h | h
      · left; simpa [albumNameLT] using h
      · right; left; rw [String.ext h]
      · right; right; simpa [albumNameLT] using h

theorem albumNameLT_trans (x y z : Option String) (h1 : albumNameLT x y = true)
    (h2 : albumNameLT y z = true) : albumNameLT x z = true := by
  cases x with
  | none =>
    cases z with
    | none => cases y <;> simp [albumNameLT] at h1 h2
    | some c => rfl
  | some a =>
    cases y with
    | none => simp [albumNameLT] at h1
    | some b =>
      cases z with
      | none => simp [albumNameLT] at h2
      | some c =>
        simp only [albumNameLT, decide_eq_true_eq] at *
        exact lt_trans h1 h2

theorem rowLE_total (a b : JoinedRow) : rowLE a b = true ∨ rowLE b a = true := by
  unfold rowLE
  rcases albumNameLT_trichotomy (a.al.map (·.name)) (b.al.map (·.name)) with h | h | h
  · left; simp [h]
  · rcases le_total a.t.number b.t.number with hn | hn
    · left; simp [h, hn]
    · right; simp [h, hn]
  · right; simp [h]

theorem rowLE_trans (a b c : JoinedRow) (h1 : rowLE a b = true) (h2 : rowLE b c = true) :
    rowLE a c = true := by
  unfold rowLE at *
  simp only [Bool.or_eq_true, Bool.and_eq_true, decide_eq_true_eq] at *
  rcases h1 with h1 | ⟨e1, n1⟩ <;> rcases h2 with h2 | ⟨e2, n2⟩
  · exact Or.inl (albumNameLT_trans _ _ _ h1 h2)
  · exact Or.inl (e2 ▸ h1)
  · exact Or.inl (e1 ▸ h2)
  · exact Or.inr ⟨e1.trans e2, le_trans n1 n2⟩

theorem orderRows_sorted (rows : List JoinedRow) :
    (orderRows rows).Pairwise (fun a b => rowLE a b = true) := by
  haveI : IsTotal JoinedRow (fun a b => rowLE a b = true) := ⟨rowLE_total⟩
  haveI : IsTrans JoinedRow (fun a b => rowLE a b = true) := ⟨rowLE_trans⟩
  exact List.sorted_insertionSort (fun a b => rowLE a b = true) rows

/-- Where every track refers to an existing album and artist, no joined row has a NULL. -/
theorem joinedRows_full (s : Store) (hrefs : s.Refs) (r : JoinedRow) (hr : r ∈ joinedRows s) :
    ∃ al ar, r.al = some al ∧ r.ar = some ar := by
  have hleft : ∀ {β : Type} (l : List β) (x : β) (o : Option β),
      x ∈ l → o ∈ leftJoin l → ∃ y, o = some y := by
    intro β l x o hx ho
    cases l with
    | nil => simp at hx
    | cons y ys =>
      simp only [leftJoin, List.mem_map] at ho
      obtain ⟨z, _, rfl⟩ := ho
      exact ⟨z, rfl⟩
  simp only [joinedRows, List.mem_flatMap, List.mem_map] at hr
  obtain ⟨t, ht, al, hal, ar, har, rfl⟩ := hr
  obtain ⟨⟨a0, ha0, hai⟩, al0, hal0, hali, _⟩ := hrefs t ht
  obtain ⟨al1, rfl⟩ := hleft _ al0 al (List.mem_filter.mpr ⟨hal0, by simpa using hali⟩) hal
  obtain ⟨ar1, rfl⟩ := hleft _ a0 ar (List.mem_filter.mpr ⟨ha0, by simpa using hai⟩) har
  exact ⟨al1, ar1, rfl, rfl⟩

theorem results_sorted (s : Store) (hrefs : s.Refs) (keep : JoinedRow → Bool) :
    ((orderRows ((joinedRows s).filter keep)).map scanRow).Pairwise resultLE := by
  rw [List.pairwise_map]
  refine List.Pairwise.imp_of_mem ?_ (orderRows_sorted _)
  intro a b ha hb hab
  have hmem : ∀ r, r ∈ orderRows ((joinedRows s).filter keep) → r ∈ joinedRows s :=
    fun r h => (List.mem_filter.mp ((orderRows_perm _).mem_iff.mp h)).1
  obtain ⟨al, ar, ea1, ea2⟩ := joinedRows_full s hrefs a (hmem a ha)
  obtain ⟨bl, br, eb1, eb2⟩ := joinedRows_full s hrefs b (hmem b hb)
  unfold rowLE at hab
  simp only [ea1, eb1, Option.map_some', albumNameLT, Bool.or_eq_true, Bool.and_eq_true,
    decide_eq_true_eq, Option.some.injEq] at hab
  simp only [resultLE, scanRow, ea1, ea2, eb1, eb2]
  exact hab

/-- C12: for every store whose tracks refer to existing album and artist rows, every
search term and every album id, the lists returned by Search(term) and
GetAlbumFiles(albumID) are sorted ascending by album name and, among results with equal
album name, ascending by track number. -/
theorem C12_results_are_sorted (s : Store) (term : String) (albumID : Int)
    (hrefs : s.Refs) :
    (Search s term).Pairwise resultLE ∧ (GetAlbumFiles s albumID).Pairwise resultLE := by
  refine ⟨?_, results_sorted s hrefs _⟩
  rw [Search_eq]
  split
  · exact List.Pairwise.nil
  · exact results_sorted s hrefs _

theorem C12_results_are_sorted_witness :
    (Search storeAlbumOfTests "t").Pairwise resultLE ∧
      (GetAlbumFiles storeAlbumOfTests 1).Pairwise resultLE :=
  C12_results_are_sorted storeAlbumOfTests "t" 1 (by decide)

/-! ## C15: removeDirectory and the wildcards of LIKE -/

/-- C15 at its failing input: removeDirectory("/lib/to_be_moved") also deletes the track of
the sibling directory /lib/to-be-moved, whose path does not start with /lib/to_be_moved/,
because each '_' of the directory name is a wildcard of the LIKE pattern. -/
theorem C15_removeDirectory_deletes_sibling_rows :
    storeSiblings.tracks.map (·.fs_path) =
      ["/lib/to_be_moved/test_file_added.mp3", "/lib/to-be-moved/other.mp3"] ∧
    ¬ ("/lib/to_be_moved/".toList <+: "/lib/to-be-moved/other.mp3".toList) ∧
    (removeDirectory storeSiblings "/lib/to_be_moved").tracks = [] ∧
    (removeDirectory storeSiblings "/LIB/TO_BE_MOVED/").tracks = [] := by
  decide

/-! ## C17: Close is idempotent -/

/-- C17: after one Close has returned, the media queue and the database handle are nil;
every further Close, and the Close inside Truncate, closes neither the queue nor the
database handle a second time (its actions are the waits only), does not panic and leaves
the library as it is.  A first Close returns for every library whose queue is nil or
open, as NewLocalLibrary makes it. -/
theorem C17_close_is_idempotent {σ : Type} (lib lib1 : LocalLibrary σ) (acts : List Action)
    (osRemove : String → Option LibError) (hclose : Close lib = .ok (lib1, acts)) :
    lib1.mediaChan = none ∧ lib1.db = none ∧
    Close lib1 = .ok (lib1, [.stopWatcher, .waitScan, .waitWalk, .waitDbWriter]) ∧
    Truncate osRemove lib1 =
      .ok (lib1, [.stopWatcher, .waitScan, .waitWalk, .waitDbWriter, .osRemove lib1.database],
        osRemove lib1.database) ∧
    (∀ (fresh : LocalLibrary σ), fresh.mediaChan ≠ some .isClosed →
      ∃ closed done, Close fresh = .ok (closed, done)) := by
  have hnil : ∀ l : LocalLibrary σ, l.mediaChan = none → l.db = none →
      Close l = .ok (l, [.stopWatcher, .waitScan, .waitWalk, .waitDbWriter]) := by
    intro l h1 h2
    simp [Close, h1, h2]
  have hstate : lib1.mediaChan = none ∧ lib1.db = none := by
    rcases lib with ⟨d, db, ch⟩
    rcases ch with _ | _ | _ <;> rcases db with _ | _ <;>
      simp only [Close, Except.ok.injEq, Prod.mk.injEq, reduceCtorEq] at hclose <;>
      first
        | exact hclose.elim
        | (rw [← hclose.1]; exact ⟨rfl, rfl⟩)
  refine ⟨hstate.1, hstate.2, hnil lib1 hstate.1 hstate.2, ?_, ?_⟩
  · simp [Truncate, hnil lib1 hstate.1 hstate.2]
  · intro fresh hfresh
    rcases fresh with ⟨d, db, ch⟩
    rcases ch with _ | _ | _ <;> rcases db with _ | _
    all_goals first
      | exact absurd rfl hfresh
      | exact ⟨_, _, rfl⟩

theorem C17_close_is_idempotent_witness :
    Close (NewLocalLibrary "/tmp/httpms_library_test_1" storeOne) =
      .ok (⟨"/tmp/httpms_library_test_1", none, none⟩,
        [.stopWatcher, .waitScan, .waitWalk, .closeMediaChan, .waitDbWriter, .closeDb]) ∧
    Close (⟨"/tmp/httpms_library_test_1", none, none⟩ : LocalLibrary Store) =
      .ok (⟨"/tmp/httpms_library_test_1", none, none⟩,
        [.stopWatcher, .waitScan, .waitWalk, .waitDbWriter]) ∧
    Truncate (fun _ => none) (⟨"/tmp/httpms_library_test_1", none, none⟩ : LocalLibrary Store) =
      .ok (⟨"/tmp/httpms_library_test_1", none, none⟩,
        [.stopWatcher, .waitScan, .waitWalk, .waitDbWriter,
          .osRemove "/tmp/httpms_library_test_1"], none) :=
  have h : Close (NewLocalLibrary "/tmp/httpms_library_test_1" storeOne) =
      .ok (⟨"/tmp/httpms_library_test_1", none, none⟩,
        [.stopWatcher, .waitScan, .waitWalk, .closeMediaChan, .waitDbWriter, .closeDb]) := rfl
  have h2 := C17_close_is_idempotent _ _ _ (fun _ => none) h
  ⟨h, h2.2.2.1, h2.2.2.2.1⟩
/-! ## C18: Initialize -/

theorem length_lt_one_iff (q : String) : q.length < 1 ↔ q = "" := by
  constructor
  · intro h
    have h0 : q.length = 0 := by omega
    exact String.ext (List.length_eq_zero.mp h0)
  · rintro rfl
    decide

/-- The loop of Initialize executes the statements of the schema, in their order, up to
the first one that fails. -/
theorem initLoop_spec {σ : Type} (exec : σ → String → σ × Option LibError) :
    ∀ (raw : List String) (st : σ),
      (allSucceed exec st ((raw.map trimSpace).filter (fun q => q ≠ "")) ∧
        initLoop exec st raw =
          ((raw.map trimSpace).filter (fun q => q ≠ ""),
            stateAfter exec st ((raw.map trimSpace).filter (fun q => q ≠ "")), none)) ∨
      (∃ pre q post e,
        (raw.map trimSpace).filter (fun q => q ≠ "") = pre ++ q :: post ∧
        allSucceed exec st pre ∧
        (exec (stateAfter exec st pre) q).2 = some e ∧
        initLoop exec st raw = (pre ++ [q], (exec (stateAfter exec st pre) q).1, some e)) := by
  intro raw
  induction raw with
  | nil => intro st; exact Or.inl ⟨trivial, rfl⟩
  | cons r rs ih =>
    intro st
    by_cases hq : (trimSpace r).length < 1
    · have hempty : trimSpace r = "" := (length_lt_one_iff _).mp hq
      have hfilter : ((r :: rs).map trimSpace).filter (fun q => q ≠ "") =
          (rs.map trimSpace).filter (fun q => q ≠ "") := by
        simp [List.filter_cons, hempty]
      have hloop : initLoop exec st (r :: rs) = initLoop exec st rs := by
        simp only [initLoop, if_pos hq]
      rw [hfilter, hloop]
      exact ih st
    · have hne : trimSpace r ≠ "" := fun h => hq ((length_lt_one_iff _).mpr h)
      have hfilter : ((r :: rs).map trimSpace).filter (fun q => q ≠ "") =
          trimSpace r :: (rs.map trimSpace).filter (fun q => q ≠ "") := by
        simp [List.filter_cons, hne]
      rw [hfilter]
      cases hex : exec st (trimSpace r) with
      | mk st1 res =>
        cases res with
        | some e =>
          right
          refine ⟨[], trimSpace r, _, e, rfl, trivial, ?_, ?_⟩
          · simp only [stateAfter, hex]
          · simp only [initLoop, if_neg hq, hex, stateAfter, List.nil_append]
        | none =>
          have hloop : initLoop exec st (r :: rs) =
              (trimSpace r :: (initLoop exec st1 rs).1, (initLoop exec st1 rs).2.1,
                (initLoop exec st1 rs).2.2) := by
            simp only [initLoop, if_neg hq, hex]
          rcases ih st1 with ⟨hall, hl⟩ | ⟨pre, q, post, e, hsplit, hall, hfail, hl⟩
          · left
            refine ⟨?_, ?_⟩
            · simp only [allSucceed, hex]
              exact ⟨trivial, hall⟩
            · rw [hloop, hl]
              simp [stateAfter, hex]
          · right
            refine ⟨trimSpace r :: pre, q, post, e, ?_, ?_, ?_, ?_⟩
            · rw [hsplit]; rfl
            · simp only [allSucceed, hex]
              exact ⟨trivial, hall⟩
            · simpa [stateAfter, hex] using hfail
            · rw [hloop, hl]
              simp [stateAfter, hex]

/-- C18: Initialize executes nothing and returns nil when the store file already exists
with non-zero size.  Otherwise, for every non-empty schema text and an open database, it
executes exactly the non-empty, whitespace-trimmed pieces of the schema text split at ';',
in their order in the text: either all of them succeed and it returns nil, or it stops at
the first statement that fails, having executed the ones before it, and returns the error
of that statement. -/
theorem C18_initialize_runs_the_schema {σ : Type} (env : InitEnv σ) (lib : LocalLibrary σ) :
    ((∃ size, env.stat lib.database = some size ∧ size > 0) →
      Initialize env lib = (lib, [], none)) ∧
    (¬ (∃ size, env.stat lib.database = some size ∧ size > 0) →
      ∀ (root schema : String) (st : σ),
        env.projectRoot = .ok root →
        env.readFile (filepathJoin [root, "sqls", "library_schema.sql"]) = .ok schema →
        schema ≠ "" → lib.db = some st →
        (allSucceed env.exec st (schemaStatements schema) ∧
          Initialize env lib =
            ({ lib with db := some (stateAfter env.exec st (schemaStatements schema)) },
              schemaStatements schema, none)) ∨
        (∃ pre q post e,
          schemaStatements schema = pre ++ q :: post ∧
          allSucceed env.exec st pre ∧
          (env.exec (stateAfter env.exec st pre) q).2 = some e ∧
          Initialize env lib =
            ({ lib with db := some (env.exec (stateAfter env.exec st pre) q).1 },
              pre ++ [q], some e))) := by
  constructor
  · rintro ⟨size, hstat, hsize⟩
    simp [Initialize, hstat, hsize]
  · intro hno root schema st hroot hfile hne hdb
    have hfound : (match env.stat lib.database with
        | some size => decide (size > 0)
        | none => false) = false := by
      cases hs : env.stat lib.database with
      | none => rfl
      | some size =>
        have : ¬ size > 0 := fun h => hno ⟨size, hs, h⟩
        simp [this]
    have hschema : readSchema env = .ok schema := by
      have hlen : ¬ schema.length < 1 := fun h => hne ((length_lt_one_iff _).mp h)
      simp [readSchema, hroot, hfile, hlen]
    have hinit : Initialize env lib =
        ({ lib with db := some (initLoop env.exec st (splitSemicolon schema)).2.1 },
          (initLoop env.exec st (splitSemicolon schema)).1,
          (initLoop env.exec st (splitSemicolon schema)).2.2) := by
      simp only [Initialize, hfound, hschema, hdb]
      rfl
    rw [hinit]
    rcases initLoop_spec env.exec (splitSemicolon schema) st with
      ⟨hall, hl⟩ | ⟨pre, q, post, e, hsplit, hall, hfail, hl⟩
    · left
      exact ⟨hall, by rw [hl]; rfl⟩
    · right
      exact ⟨pre, q, post, e, hsplit, hall, hfail, by rw [hl]⟩

/-- A toy world whose schema has a failing second statement. -/
theorem C18_initialize_runs_the_schema_witness :
    Initialize toyInitEnv (NewLocalLibrary "/tmp/db" []) =
      (⟨"/tmp/db", some ["create table a", "create table b"], some .isOpen⟩,
        ["create table a", "create table b"], none) ∧
    Initialize { toyInitEnv with readFile := fun _ => .ok "create table a; drop x ;create b" }
        (NewLocalLibrary "/tmp/db" []) =
      (⟨"/tmp/db", some ["create table a"], some .isOpen⟩,
        ["create table a", "drop x"], some (.engine "drop x")) ∧
    Initialize { toyInitEnv with stat := fun _ => some 4096 } (NewLocalLibrary "/tmp/db" []) =
      (NewLocalLibrary "/tmp/db" [], [], none) :=
  ⟨by decide, by decide,
    (C18_initialize_runs_the_schema { toyInitEnv with stat := fun _ => some 4096 }
      (NewLocalLibrary "/tmp/db" [])).1 ⟨4096, rfl, by decide⟩⟩

/-! ## C21: basic authentication -/

theorem takeWhile_dropWhile_of_split {c : Char} {a b : List Char} (h : c ∉ a) :
    (a ++ c :: b).takeWhile (fun x => x ≠ c) = a ∧
      (a ++ c :: b).dropWhile (fun x => x ≠ c) = c :: b := by
  induction a with
  | nil => simp [List.takeWhile_cons, List.dropWhile_cons]
  | cons y ys ih =>
    have hy : y ≠ c := fun e => h (e ▸ List.mem_cons_self _ _)
    have hys : c ∉ ys := fun hm => h (List.mem_cons_of_mem _ hm)
    obtain ⟨h1, h2⟩ := ih hys
    have hd : decide (y ≠ c) = true := by simpa using hy
    simp only [List.cons_append, List.takeWhile_cons, List.dropWhile_cons]
    rw [if_pos hd, if_pos hd, h1, h2]
    exact ⟨rfl, rfl⟩

/-- SplitN(s, sep, 2) gives two pieces exactly when s is the first piece, without a
separator in it, then the separator, then the second piece. -/
theorem splitN2_eq_pair (s : String) (c : Char) (x y : String) :
    splitN2 s c = [x, y] ↔ c ∉ x.toList ∧ s.toList = x.toList ++ c :: y.toList := by
  unfold splitN2
  constructor
  · intro h
    by_cases hc : c ∈ s.toList
    · rw [if_pos hc] at h
      simp only [List.cons.injEq, and_true] at h
      obtain ⟨hx, hy⟩ := h
      have hx2 : x.toList = s.toList.takeWhile (fun z => z ≠ c) := by rw [← hx]; rfl
      have hy2 : y.toList = (s.toList.dropWhile (fun z => z ≠ c)).tail := by rw [← hy]; rfl
      obtain ⟨rest, hrest⟩ := split_at_first hc
      have hno : c ∉ s.toList.takeWhile (fun z => z ≠ c) := fun hm => by
        simpa using List.mem_takeWhile_imp hm
      have hd := (takeWhile_dropWhile_of_split (b := rest) hno).2
      rw [← hrest] at hd
      refine ⟨hx2 ▸ hno, ?_⟩
      rw [hx2, hy2, hd]
      exact hrest
    · rw [if_neg hc] at h
      simp at h
  · rintro ⟨hno, hs⟩
    have hc : c ∈ s.toList := by rw [hs]; simp
    obtain ⟨h1, h2⟩ := takeWhile_dropWhile_of_split (b := y.toList) hno
    rw [if_pos hc, hs, h1, h2]
    rfl

theorem splitN2_length (s : String) (c : Char) :
    (∃ x y, splitN2 s c = [x, y]) ∨ splitN2 s c = [s] := by
  unfold splitN2
  by_cases hc : c ∈ s.toList
  · exact Or.inl ⟨_, _, if_pos hc⟩
  · exact Or.inr (if_neg hc)

/-- C21: for every configured username and password and every Authorization header
value, authenticate returns true if and only if the value is "Basic " followed by a text
that the standard base64 decoder decodes to username + ":" + password, and the username
contains no ':'.  The password is not restricted: it may contain ':'.  Every other value
(another scheme, a text the decoder rejects, no ':' in the decoded text) gives false. -/
theorem C21_authenticate_iff (decodeString : String → Option String)
    (username password auth : String) :
    authenticate decodeString username password auth = true ↔
      ∃ payload, auth = "Basic " ++ payload ∧
        decodeString payload = some (username ++ ":" ++ password) ∧
        ':' ∉ username.toList := by
  constructor
  · intro h
    unfold authenticate at h
    rcases splitN2_length auth ' ' with ⟨scheme, payload, e1⟩ | e1
    · rw [e1] at h
      simp only at h
      by_cases hs : scheme = "Basic"
      · rw [if_neg (fun hne => hne hs)] at h
        cases hd : decodeString payload with
        | none => rw [hd] at h; simp at h
        | some b =>
          rw [hd] at h
          simp only at h
          rcases splitN2_length b ':' with ⟨user, pass, e2⟩ | e2
          · rw [e2] at h
            simp only [Bool.and_eq_true, decide_eq_true_eq] at h
            obtain ⟨hu, hp⟩ := h
            subst hu hp hs
            obtain ⟨_, ha⟩ := (splitN2_eq_pair auth ' ' "Basic" payload).mp e1
            obtain ⟨hcol, hb⟩ := (splitN2_eq_pair b ':' user pass).mp e2
            refine ⟨payload, ?_, ?_, hcol⟩
            · apply String.ext
              rw [show auth.data = auth.toList from rfl, ha]
              simp [String.toList, String.data_append]
            · have : b = user ++ ":" ++ pass := by
                apply String.ext
                rw [show b.data = b.toList from rfl, hb]
                simp [String.toList, String.data_append]
              rw [hd, this]
          · rw [e2] at h
            simp at h
      · rw [if_pos hs] at h
        simp at h
    · rw [e1] at h
      simp at h
  · rintro ⟨payload, rfl, hd, hcol⟩
    have e1 : splitN2 ("Basic " ++ payload) ' ' = ["Basic", payload] := by
      rw [splitN2_eq_pair]
      refine ⟨by decide, ?_⟩
      simp [String.toList, String.data_append]
    have e2 : splitN2 (username ++ ":" ++ password) ':' = [username, password] := by
      rw [splitN2_eq_pair]
      refine ⟨hcol, ?_⟩
      simp [String.toList, String.data_append]
    unfold authenticate
    rw [e1]
    simp only [ne_eq, not_true_eq_false, if_false, hd, e2, decide_True, Bool.and_self]

theorem C21_authenticate_iff_witness :
    authenticate base64DecodeAscii "user" "pa:ss" "Basic dXNlcjpwYTpzcw==" = true ∧
    base64DecodeAscii "dXNlcjpwYTpzcw==" = some "user:pa:ss" ∧
    authenticate base64DecodeAscii "user" "pa:ss" "basic dXNlcjpwYTpzcw==" = false ∧
    authenticate base64DecodeAscii "user" "pa:ss" "Bearer dXNlcjpwYTpzcw==" = false ∧
    authenticate base64DecodeAscii "user" "pa:ss" "Basic dXNlcjpwYTpzcw" = false ∧
    authenticate base64DecodeAscii "user" "pa:ss" "Basic dXNlcg==" = false ∧
    authenticate base64DecodeAscii "us:er" "pass" "Basic dXM6ZXI6cGFzcw==" = false ∧
    base64DecodeAscii "dXM6ZXI6cGFzcw==" = some "us:er:pass" :=
  have h := (C21_authenticate_iff base64DecodeAscii "user" "pa:ss"
    "Basic dXNlcjpwYTpzcw==").mpr ⟨"dXNlcjpwYTpzcw==", by decide, by decide, by decide⟩
  ⟨h, by decide, by decide, by decide, by decide, by decide, by decide, by decide⟩

/-! ## C22: FileHandler.find -/

/-- C22 at its failing input, the URL path "abc": find writes the not-found response,
then all the same asks the library for the path of id 0, looks the answer up on disk and
writes the not-found response a second time.  For every path that Atoi rejects find goes
on to the library after the first not-found response, and ends with a second not-found
response or with a file served.  For a path that is a decimal integer it answers
not-found, once, exactly when the path the library returns is not found on disk. -/
theorem C22_find_goes_on_after_not_found :
    find (GetFilePath storeOne) statOneFile "abc" =
      ([.notFound, .getFilePath 0, .stat "", .notFound], none) ∧
    (∀ (getFilePath : Int → String) (stat : String → Option LibError) (urlPath : String),
      (strconvAtoi urlPath).2 ≠ none →
      ∃ last, (find getFilePath stat urlPath).1 =
          [.notFound, .getFilePath (strconvAtoi urlPath).1,
            .stat (getFilePath (strconvAtoi urlPath).1), last] ∧
        (last = .notFound ∨ ∃ dir name, last = .serveFile dir name)) ∧
    (∀ (getFilePath : Int → String) (stat : String → Option LibError) (urlPath : String),
      (strconvAtoi urlPath).2 = none →
      (stat (getFilePath (strconvAtoi urlPath).1) ≠ none →
        (find getFilePath stat urlPath).1 =
          [.getFilePath (strconvAtoi urlPath).1,
            .stat (getFilePath (strconvAtoi urlPath).1), .notFound]) ∧
      (stat (getFilePath (strconvAtoi urlPath).1) = none →
        (find getFilePath stat urlPath).1 =
          [.getFilePath (strconvAtoi urlPath).1,
            .stat (getFilePath (strconvAtoi urlPath).1),
            .serveFile (filepathDir (getFilePath (strconvAtoi urlPath).1))
              ("/" ++ filepathBase (getFilePath (strconvAtoi urlPath).1))])) := by
  refine ⟨by decide, ?_, ?_⟩
  · intro getFilePath stat urlPath herr
    unfold find
    generalize strconvAtoi urlPath = r at herr
    obtain ⟨id, err⟩ := r
    simp only at herr
    simp only [ne_eq, herr, not_false_eq_true, if_true]
    cases stat (getFilePath id) with
    | some e => exact ⟨_, rfl, Or.inl rfl⟩
    | none => exact ⟨_, rfl, Or.inr ⟨_, _, rfl⟩⟩
  · intro getFilePath stat urlPath hok
    unfold find
    generalize strconvAtoi urlPath = r at hok
    obtain ⟨id, err⟩ := r
    simp only at hok
    subst hok
    simp only [ne_eq, not_true_eq_false, if_false, List.nil_append]
    cases hs : stat (getFilePath id) with
    | some e => exact ⟨fun _ => rfl, fun h => by cases h⟩
    | none => exact ⟨fun h => absurd rfl h, fun _ => rfl⟩

end Httpms
